import Mathlib

/-!
# File storage lifecycle of the file-sync servers

A shallow embedding of `src/file-sync-app/backend/server.js` (namespace `Backend`)
and `src/web-app/server.js` (namespace `WebApp`): the SQLite tables `users` and
`files`, the `uploads/` directory, and the Express handlers for upload, list,
download and delete.

Every step that can fail for a reason outside the store (a SQLite statement, a
filesystem call) takes its outcome from an explicit environment record, so that
each handler is a total function from the environment, the store and the request
to the new store and what the caller observes.
-/

/-- Raw bytes of a blob. -/
abbrev Bytes := List UInt8

/-- A row of the table `users`. -/
structure User where
  id : Nat
  username : String
  password : String
  created_at : Nat
  deriving DecidableEq, Repr

/-- A row of the table `files`. The column `uploaded_by` holds the bound parameter
as the handler passed it (the text of the form field `uploadedBy`); which number
the INTEGER column makes of that text is the engine's reading, an argument of the
list query. `upload_date` is the value of `CURRENT_TIMESTAMP` at the insert. -/
structure FileRecord where
  id : Nat
  filename : String
  original_name : String
  file_path : String
  file_size : Nat
  uploaded_by : String
  upload_date : Nat
  deriving DecidableEq, Repr

/-- Process-wide state: the two tables, the `sqlite_sequence` counters of their
AUTOINCREMENT keys (`seq` for `files`, `userSeq` for `users`), and the content of
the upload directory as an association list from path to bytes. -/
structure Store where
  users : List User
  files : List FileRecord
  seq : Nat
  blobs : List (String × Bytes)
  userSeq : Nat
  deriving DecidableEq, Repr

/-- A row of `SELECT f.*, u.username as uploaded_by_name`: the columns of the
file row and the joined user name (`none` is SQL NULL). -/
structure FileRow where
  file : FileRecord
  uploaded_by_name : Option String
  deriving DecidableEq, Repr

/-- Body of a JSON response: `failure e` is `{success: false, error: e}`, the
others are the `success: true` bodies of upload, list, delete and register. -/
inductive Body where
  | failure (error : String)
  | uploaded (id : Nat) (original_name : String) (file_size : Nat) (upload_date : Nat)
  | files (rows : List FileRow)
  | message (message : String)
  | user (id : Nat) (username : String)
  deriving DecidableEq, Repr

/-- What the caller of a handler observes. `uncaught` is an exception thrown
outside the reach of Express (inside a callback of the database driver): no
response is written. `pending` is a response that is never completed. -/
inductive Outcome where
  | json (status : Nat) (body : Body)
  | download (path : String) (saveName : String) (content : Bytes)
  | uncaught
  | pending
  deriving DecidableEq, Repr

/-! ## Filesystem -/

/-- The value of `fs.existsSync(path)`. -/
def existsSync (blobs : List (String × Bytes)) (path : String) : Bool :=
  blobs.any (fun b => b.1 == path)

/-- Content of the file at `path`, if there is one. -/
def readBlob (blobs : List (String × Bytes)) (path : String) : Option Bytes :=
  (blobs.find? (fun b => b.1 == path)).map (fun b => b.2)

/-- Directory content once the entry `path` is gone. -/
def removeBlob (blobs : List (String × Bytes)) (path : String) : List (String × Bytes) :=
  blobs.filter (fun b => !(b.1 == path))

/-- Directory content once `content` has been written at `path` (an existing
file of that name is replaced). -/
def writeBlob (blobs : List (String × Bytes)) (path : String) (content : Bytes) :
    List (String × Bytes) :=
  (path, content) :: removeBlob blobs path

/-- The call `fs.unlinkSync(path)`: `none` when it throws (the file is missing,
or the operating system refuses: `osError`), else the new directory content. -/
def unlinkSync (osError : Bool) (blobs : List (String × Bytes)) (path : String) :
    Option (List (String × Bytes)) :=
  if existsSync blobs path && !osError then some (removeBlob blobs path) else none

/-- The call `fs.unlink(path, cb)`: the directory content after it and whether
the callback received an error. -/
def unlink (osError : Bool) (blobs : List (String × Bytes)) (path : String) :
    List (String × Bytes) × Bool :=
  match unlinkSync osError blobs path with
  | some blobs' => (blobs', false)
  | none => (blobs, true)

/-! ## Metadata store -/

/-- Largest rowid in the table `files` (0 for the empty table). -/
def maxRowid (files : List FileRecord) : Nat :=
  files.foldr (fun f m => max f.id m) 0

/-- The key an AUTOINCREMENT insert assigns: one more than the largest rowid
that has ever existed in the table. -/
def nextRowid (s : Store) : Nat :=
  max s.seq (maxRowid s.files) + 1

/-- The row `db.get('SELECT * FROM files WHERE id = ?')` hands to its callback:
`none` stands for `err || !file`. `fileId` is the key that the text of the route
parameter `:fileId` denotes. -/
def selectFile (err : Bool) (s : Store) (fileId : Nat) : Option FileRecord :=
  if err then none else s.files.find? (fun f => f.id == fileId)

/-- Table `files` after `DELETE FROM files WHERE id = ?`. -/
def deleteRow (files : List FileRecord) (fileId : Nat) : List FileRecord :=
  files.filter (fun f => !(f.id == fileId))


/-- What the INTEGER column `files.uploaded_by` holds for a text bound to it, as
a key to compare with `users.id`: the natural number the database engine reads
the text as, `none` when it reads no natural number (a text that is no numeral,
a negative or a fractional number). The conversion is the engine's column
affinity, which is no code of this repository, so the list query takes it as an
argument and every statement about the list holds for each such reading. -/
abbrev IntegerAffinity := String → Option Nat

/-- The reading of plain decimal numerals: a non-empty text of digits reads as
the number it denotes, any other text as no number. This is the form in which
the front end sends `currentUser.id` as `uploadedBy`. The engine also reads
blank-padded, signed, fractional and exponent numerals such as `1.0`, `+1` or
`1e0` as integers; this reading leaves them at `none`, so it serves the sample
stores only, whose `uploaded_by` texts are plain numerals. -/
def parseDecimal : IntegerAffinity := fun t =>
  if t.data ≠ [] ∧ t.data.all Char.isDigit = true then
    some (t.data.foldl (fun n c => 10 * n + (c.toNat - 48)) 0)
  else none

/-- Rows of `files f LEFT JOIN users u ON f.uploaded_by = u.id` for one file:
one row per user whose id is the number that `uploaded_by` is read as, or a
single row with a NULL name when there is no such user. -/
def leftJoinUsers (reading : IntegerAffinity) (users : List User) (f : FileRecord) :
    List FileRow :=
  match users.filter (fun u => reading f.uploaded_by == some u.id) with
  | [] => [⟨f, none⟩]
  | u :: us => (u :: us).map (fun v => ⟨f, some v.username⟩)

/-- The order `ORDER BY f.upload_date DESC` puts `a` no later than `b`. -/
def newerOrSame (a b : FileRow) : Prop := b.file.upload_date ≤ a.file.upload_date

instance : DecidableRel newerOrSame := fun a b =>
  inferInstanceAs (Decidable (b.file.upload_date ≤ a.file.upload_date))

instance : IsTrans FileRow newerOrSame :=
  ⟨fun _ _ _ hab hbc => Nat.le_trans hbc hab⟩

instance : IsTotal FileRow newerOrSame :=
  ⟨fun a b => Nat.le_total b.file.upload_date a.file.upload_date⟩

/-- Result set of the list query: the join in table order, sorted by
`upload_date` descending. SQL leaves the order of rows with equal `upload_date`
open; the model keeps them in table order (a stable sort). -/
def selectFilesWithUploader (reading : IntegerAffinity) (s : Store) : List FileRow :=
  (s.files.flatMap (leftJoinUsers reading s.users)).insertionSort newerOrSame

/-! ## Upload (multer and the handler) -/

/-- The `file` part of a multipart upload request. -/
structure MultipartFile where
  originalname : String
  content : Bytes
  deriving DecidableEq, Repr

/-- A request to `POST /api/upload`: the `file` part and the text field
`uploadedBy`, either of which may be missing. -/
structure UploadRequest where
  file : Option MultipartFile
  uploadedBy : Option String
  deriving DecidableEq, Repr

/-- The object `req.file` that multer hands to the handler. -/
structure ReqFile where
  filename : String
  originalname : String
  path : String
  size : Nat
  deriving DecidableEq, Repr

/-- Environment of one upload: `uniqueName` is the value the `filename`
callback computed (`Date.now() + '-' + Math.round(Math.random() * 1E9) +
path.extname(file.originalname)`), `insertErr` whether the INSERT fails,
`unlinkSyncErr` whether the operating system refuses `fs.unlinkSync`,
`currentTimestamp` the value of `CURRENT_TIMESTAMP` at the INSERT and
`responseDate` the clock read by `new Date()` for the response. -/
structure UploadEnv where
  uniqueName : String
  insertErr : Bool
  unlinkSyncErr : Bool
  currentTimestamp : Nat
  responseDate : Nat
  deriving DecidableEq, Repr

/-- Environment of one delete: whether the SELECT, the `fs.unlink` and the
DELETE statement fail. -/
structure DeleteEnv where
  getErr : Bool
  unlinkErr : Bool
  runErr : Bool
  deriving DecidableEq, Repr

/-- The value of the text field `uploadedBy` when JavaScript takes it as true:
`none` when `!uploadedBy` holds, that is when the field is missing or empty. -/
def truthy (field : Option String) : Option String :=
  match field with
  | none => none
  | some t => if t = "" then none else some t

/-- The directory multer stores into. -/
def uploadPath : String := "uploads"

/-- Where multer stores a file named `filename`: `path.join(uploadPath, filename)`. -/
def storagePath (filename : String) : String := uploadPath ++ "/" ++ filename

/-- What the multer middleware leaves for the handler. -/
inductive MulterResult where
  | passed (file : Option ReqFile) (blobs : List (String × Bytes))
  | failed (blobs : List (String × Bytes))
  deriving DecidableEq, Repr

/-- The response of the Express error-handling middleware
(`app.use((err, req, res, next) => ...)`). -/
def errorMiddleware : Outcome :=
  Outcome.json 500 (Body.failure "Error interno del servidor")

namespace Backend

/-- The multer limit `fileSize: 50 * 1024 * 1024`. -/
def fileSizeLimit : Nat := 50 * 1024 * 1024

/-- The middleware `upload.single('file')`: without a `file` part it passes the
request on; a file over the size limit is an error and nothing of it stays
on disk; otherwise the content is written under the name the `filename` callback
computed and `req.file` describes it. -/
def uploadSingle (env : UploadEnv) (blobs : List (String × Bytes))
    (part : Option MultipartFile) : MulterResult :=
  match part with
  | none => MulterResult.passed none blobs
  | some f =>
    if fileSizeLimit < f.content.length then
      MulterResult.failed (removeBlob blobs (storagePath env.uniqueName))
    else
      MulterResult.passed
        (some { filename := env.uniqueName, originalname := f.originalname,
                path := storagePath env.uniqueName, size := f.content.length })
        (writeBlob blobs (storagePath env.uniqueName) f.content)

/-- The object `fileInfo` of the upload handler together with the columns the
INSERT fills in itself (`id`, `upload_date`). -/
def fileInfo (id : Nat) (file : ReqFile) (uploadedBy : String) (now : Nat) : FileRecord :=
  { id := id, filename := file.filename, original_name := file.originalname,
    file_path := file.path, file_size := file.size, uploaded_by := uploadedBy,
    upload_date := now }

/-- The handler of `POST /api/upload`, run on the store multer left, with
`req.file` and `req.body.uploadedBy`. The first `fs.unlinkSync` runs inside the
route handler, so when it throws Express passes the error to the error middleware;
the second one runs inside the callback of `db.run`, where nothing catches it. -/
def uploadHandler (env : UploadEnv) (s : Store) (file : Option ReqFile)
    (uploadedBy : Option String) : Store × Outcome :=
  match file with
  | none => (s, Outcome.json 400 (Body.failure "No se subió ningún archivo"))
  | some f =>
    match truthy uploadedBy with
    | none =>
      match unlinkSync env.unlinkSyncErr s.blobs f.path with
      | none => (s, errorMiddleware)
      | some blobs' =>
        ({ s with blobs := blobs' }, Outcome.json 400 (Body.failure "ID de usuario requerido"))
    | some uploader =>
      if env.insertErr then
        match unlinkSync env.unlinkSyncErr s.blobs f.path with
        | none => (s, Outcome.uncaught)
        | some blobs' =>
          ({ s with blobs := blobs' },
            Outcome.json 500 (Body.failure "Error guardando archivo en base de datos"))
      else
        ({ s with files := s.files ++ [fileInfo (nextRowid s) f uploader env.currentTimestamp],
                  seq := nextRowid s },
          Outcome.json 200 (Body.uploaded (nextRowid s) f.originalname f.size env.responseDate))

/-- The route `POST /api/upload`: multer, then the handler; an error of multer
goes to the error middleware. -/
def apiUpload (env : UploadEnv) (s : Store) (req : UploadRequest) : Store × Outcome :=
  match uploadSingle env s.blobs req.file with
  | MulterResult.failed blobs' => ({ s with blobs := blobs' }, errorMiddleware)
  | MulterResult.passed file blobs' => uploadHandler env { s with blobs := blobs' } file req.uploadedBy

/-- The route `GET /api/files`; `err` is whether the query fails, `reading` how
the engine reads `uploaded_by`. -/
def apiFiles (reading : IntegerAffinity) (err : Bool) (s : Store) : Store × Outcome :=
  if err then (s, Outcome.json 500 (Body.failure "Error obteniendo archivos"))
  else (s, Outcome.json 200 (Body.files (selectFilesWithUploader reading s)))

/-- The route `GET /api/download/:fileId`; `getErr` is whether the SELECT fails.
`res.download` sends the content of the file under the name `original_name`. -/
def apiDownload (getErr : Bool) (s : Store) (fileId : Nat) : Store × Outcome :=
  match selectFile getErr s fileId with
  | none => (s, Outcome.json 404 (Body.failure "Archivo no encontrado"))
  | some file =>
    if !existsSync s.blobs file.file_path then
      (s, Outcome.json 404 (Body.failure "Archivo físico no encontrado"))
    else
      match readBlob s.blobs file.file_path with
      | some content => (s, Outcome.download file.file_path file.original_name content)
      | none => (s, Outcome.pending)

/-- The route `DELETE /api/files/:fileId`: the blob is unlinked only when
`fs.existsSync` sees it, an error of the unlink is only logged, and the response
depends on the DELETE statement alone. -/
def apiDeleteFile (env : DeleteEnv) (s : Store) (fileId : Nat) : Store × Outcome :=
  match selectFile env.getErr s fileId with
  | none => (s, Outcome.json 404 (Body.failure "Archivo no encontrado"))
  | some file =>
    let blobs' :=
      if existsSync s.blobs file.file_path then (unlink env.unlinkErr s.blobs file.file_path).1
      else s.blobs
    if env.runErr then
      ({ s with blobs := blobs' }, Outcome.json 500 (Body.failure "Error eliminando archivo"))
    else
      ({ s with blobs := blobs', files := deleteRow s.files fileId },
        Outcome.json 200 (Body.message "Archivo eliminado correctamente"))

end Backend

namespace WebApp

/-- The route `GET /api/files` of the web app; `err` is whether the query fails,
`reading` how the engine reads `uploaded_by`. -/
def apiFiles (reading : IntegerAffinity) (err : Bool) (s : Store) : Store × Outcome :=
  if err then (s, Outcome.json 500 (Body.failure "Error obteniendo archivos"))
  else (s, Outcome.json 200 (Body.files (selectFilesWithUploader reading s)))

/-- The route `DELETE /api/files/:fileId` of the web app: `fs.unlink` is called
without an existence check, its error is only logged, and the DELETE statement
runs from its callback. -/
def apiDeleteFile (env : DeleteEnv) (s : Store) (fileId : Nat) : Store × Outcome :=
  match selectFile env.getErr s fileId with
  | none => (s, Outcome.json 404 (Body.failure "Archivo no encontrado"))
  | some file =>
    let blobs' := (unlink env.unlinkErr s.blobs file.file_path).1
    if env.runErr then
      ({ s with blobs := blobs' }, Outcome.json 500 (Body.failure "Error eliminando archivo"))
    else
      ({ s with blobs := blobs', files := deleteRow s.files fileId },
        Outcome.json 200 (Body.message "Archivo eliminado"))

end WebApp

/-! ## Runs of the backend file store -/

/-- One operation on the backend file store with the environment it runs in. -/
inductive Op where
  | upload (env : UploadEnv) (req : UploadRequest)
  | delete (env : DeleteEnv) (fileId : Nat)
  deriving DecidableEq, Repr

/-- The store after one operation. -/
def Backend.step (s : Store) (op : Op) : Store :=
  match op with
  | Op.upload env req => (Backend.apiUpload env s req).1
  | Op.delete env fileId => (Backend.apiDeleteFile env s fileId).1

/-- The store after a sequence of operations. -/
def Backend.run (s : Store) (ops : List Op) : Store :=
  ops.foldl Backend.step s

/-- The store right after start-up: the default user, no file, an empty upload
directory. -/
def initialStore : Store :=
  { users := [{ id := 1, username := "admin", password := "123456", created_at := 0 }],
    files := [], seq := 0, blobs := [], userSeq := 1 }

/-- The stored names the `filename` callback allocated during `ops`: one for
each upload that carries a `file` part. -/
def allocatedNames (ops : List Op) : List String :=
  ops.filterMap (fun op =>
    match op with
    | Op.upload env req => if req.file.isSome then some env.uniqueName else none
    | Op.delete _ _ => none)

/-- Every FileRecord has a blob at its storage path. -/
def Consistent (s : Store) : Prop :=
  ∀ f ∈ s.files, existsSync s.blobs f.file_path = true

instance (s : Store) : Decidable (Consistent s) :=
  inferInstanceAs (Decidable (∀ f ∈ s.files, existsSync s.blobs f.file_path = true))


/-- A delete loses its row removal: the SELECT went through, the operating system
did not refuse the unlink, and the DELETE statement then failed. -/
def removalLost (env : DeleteEnv) : Bool :=
  !env.getErr && !env.unlinkErr && env.runErr

/-- No delete among `ops` loses its row removal. -/
def noRemovalLost (ops : List Op) : Bool :=
  ops.all (fun op =>
    match op with
    | Op.upload _ _ => true
    | Op.delete env _ => !removalLost env)

/-- Invariant of the runs of the backend store, relative to the stored names
`used` so far: every FileRecord has its blob, every storage path was built from a
used name, and FileRecords that share a storage path share their key. -/
def StoreInv (used : List String) (s : Store) : Prop :=
  (∀ f ∈ s.files, existsSync s.blobs f.file_path = true) ∧
    (∀ f ∈ s.files, ∃ n ∈ used, f.file_path = storagePath n) ∧
    (∀ f ∈ s.files, ∀ g ∈ s.files, f.file_path = g.file_path → f.id = g.id)

/-- Some operation among `ops` is a delete of `fileId`. -/
def deletes (fileId : Nat) (ops : List Op) : Bool :=
  ops.any (fun op =>
    match op with
    | Op.upload _ _ => false
    | Op.delete _ id => id == fileId)

/-- The store still serves the record `r` with the content `content`: the SELECT
by the key of `r` returns `r`, the blob at its storage path has that content, and
no FileRecord with another key shares the storage path. -/
def HoldsFile (r : FileRecord) (content : Bytes) (s : Store) : Prop :=
  s.files.find? (fun f => f.id == r.id) = some r ∧
    readBlob s.blobs r.file_path = some content ∧
    ∀ g ∈ s.files, g.file_path = r.file_path → g.id = r.id

/-! ## Register -/

/-- The JSON body of `POST /api/register`: either field may be missing. -/
structure Credentials where
  username : Option String
  password : Option String
  deriving DecidableEq, Repr

/-- Environment of one register call: `insertErr` is whether the INSERT fails
for a reason other than the UNIQUE constraint on `username`, `currentTimestamp`
the value of `CURRENT_TIMESTAMP` at the INSERT. -/
structure RegisterEnv where
  insertErr : Bool
  currentTimestamp : Nat
  deriving DecidableEq, Repr

/-- JavaScript `text.length`: the number of UTF-16 code units of the text (two
for a character outside the basic plane). -/
def jsLength (text : String) : Nat :=
  (text.data.map (fun c => if c.toNat < 65536 then 1 else 2)).sum

/-- Largest rowid in the table `users` (0 for the empty table). -/
def maxUserRowid (users : List User) : Nat :=
  users.foldr (fun u m => max u.id m) 0

/-- The key an AUTOINCREMENT insert into `users` assigns. -/
def nextUserRowid (s : Store) : Nat :=
  max s.userSeq (maxUserRowid s.users) + 1

/-- The statement `INSERT INTO users (username, password) VALUES (?, ?)` fails
when the environment makes it fail or when a row already has the username (the
column is `UNIQUE`, compared exactly). -/
def insertUserFails (env : RegisterEnv) (s : Store) (username : String) : Bool :=
  env.insertErr || s.users.any (fun u => u.username == username)

/-- The route `POST /api/register` of the backend: both fields are required and
must have a `length` of at least 3; any error of the INSERT is answered with 400
`Usuario ya existe`; otherwise the new row gets the next key and the response
carries that key and the username. -/
def Backend.apiRegister (env : RegisterEnv) (s : Store) (req : Credentials) :
    Store × Outcome :=
  match truthy req.username, truthy req.password with
  | some username, some password =>
    if jsLength username < 3 || jsLength password < 3 then
      (s, Outcome.json 400
        (Body.failure "Usuario y contraseña deben tener al menos 3 caracteres"))
    else if insertUserFails env s username then
      (s, Outcome.json 400 (Body.failure "Usuario ya existe"))
    else
      ({ s with
          users := s.users ++ [{ id := nextUserRowid s, username := username,
                                 password := password,
                                 created_at := env.currentTimestamp }],
          userSeq := nextUserRowid s },
        Outcome.json 200 (Body.user (nextUserRowid s) username))
  | _, _ => (s, Outcome.json 400 (Body.failure "Usuario y contraseña requeridos"))

/-! ## Stored names -/

/-- POSIX `path.extname` on the characters of a path, read from the end:
trailing slashes are dropped, the last component is what precedes the next
slash, and the extension runs from the last dot of that component to its end. It
is empty when the component has no dot, when its only dot is its first
character, and when the component is `..`. -/
def extnameChars (path : List Char) : List Char :=
  let component := (path.reverse.dropWhile (fun c => c == '/')).takeWhile (fun c => c != '/')
  let afterDot := component.takeWhile (fun c => c != '.')
  match component.dropWhile (fun c => c != '.') with
  | [] => []
  | _ :: beforeDot =>
    if beforeDot = [] then []
    else if beforeDot = ['.'] ∧ afterDot = [] then []
    else '.' :: afterDot.reverse

/-- The value of `path.extname(path)`. -/
def extname (path : String) : String := ⟨extnameChars path.data⟩

/-- The `filename` callback of `multer.diskStorage`, the same in both servers:
`Date.now() + '-' + Math.round(Math.random() * 1E9) +
path.extname(file.originalname)`, where `now` is the clock reading and `random`
the rounded random integer. -/
def uniqueName (now random : Nat) (originalname : String) : String :=
  toString now ++ "-" ++ toString random ++ extname originalname

/-! ## Sample inputs -/

/-- A 10-byte file named `a.txt` sent by uploader 1. -/
def sampleRequest : UploadRequest :=
  { file := some { originalname := "a.txt", content := [1, 2, 3, 4, 5, 6, 7, 8, 9, 10] },
    uploadedBy := some "1" }

/-- An upload in which every step works. -/
def uploadOk : UploadEnv :=
  { uniqueName := "1700000000000-42.txt", insertErr := false, unlinkSyncErr := false,
    currentTimestamp := 100, responseDate := 100000 }

/-- An upload whose INSERT fails while the compensating unlink works. -/
def uploadInsertFails : UploadEnv := { uploadOk with insertErr := true }

/-- An upload whose INSERT fails and whose compensating unlink fails too. -/
def uploadInsertAndUnlinkFail : UploadEnv :=
  { uploadOk with insertErr := true, unlinkSyncErr := true }

/-- A delete in which every step works. -/
def deleteOk : DeleteEnv := { getErr := false, unlinkErr := false, runErr := false }

/-- A delete whose unlink works and whose DELETE statement fails. -/
def deleteRunFails : DeleteEnv := { getErr := false, unlinkErr := false, runErr := true }

/-- The record the sample upload creates. -/
def sampleRecord : FileRecord :=
  { id := 1, filename := "1700000000000-42.txt", original_name := "a.txt",
    file_path := "uploads/1700000000000-42.txt", file_size := 10, uploaded_by := "1",
    upload_date := 100 }

/-- A store whose only FileRecord has no blob at its storage path. -/
def storeWithoutBlob : Store := { initialStore with files := [sampleRecord], seq := 1 }

/-- A store with one FileRecord and its blob. -/
def storeWithBlob : Store :=
  { storeWithoutBlob with blobs := [("uploads/1700000000000-42.txt", [1, 2, 3, 4, 5, 6, 7, 8, 9, 10])] }

/-- A store with three FileRecords uploaded at the times 10 < 20 < 30. -/
def storeThreeFiles : Store :=
  { initialStore with
    files := [{ sampleRecord with id := 1, upload_date := 10 },
              { sampleRecord with id := 2, upload_date := 20, uploaded_by := "7" },
              { sampleRecord with id := 3, upload_date := 30 }],
    seq := 3 }

/-- An upload that works followed by a delete whose DELETE statement fails. -/
def uploadThenFailedDelete : List Op :=
  [Op.upload uploadOk sampleRequest, Op.delete deleteRunFails 1]

/-- A run with a working upload, an upload whose INSERT and compensating unlink
both fail, a delete whose unlink fails and a delete whose SELECT fails. -/
def sampleRun : List Op :=
  [Op.upload uploadOk sampleRequest,
   Op.upload { uploadInsertAndUnlinkFail with uniqueName := "1700000000001-7.txt" }
     { sampleRequest with uploadedBy := some "2" },
   Op.delete { getErr := false, unlinkErr := true, runErr := true } 1,
   Op.delete { getErr := true, unlinkErr := false, runErr := true } 1]

/-- The sample file sent without the field `uploadedBy`. -/
def requestWithoutUploader : UploadRequest := { sampleRequest with uploadedBy := none }

/-- An upload in which the operating system refuses `fs.unlinkSync`. -/
def uploadUnlinkFails : UploadEnv := { uploadOk with unlinkSyncErr := true }

/-- A second file, `b.txt` with two bytes, sent by uploader 1. -/
def secondRequest : UploadRequest :=
  { file := some { originalname := "b.txt", content := [9, 9] }, uploadedBy := some "1" }

/-! ## The upload directory -/

theorem existsSync_removeBlob (blobs : List (String × Bytes)) (p q : String) :
    existsSync (removeBlob blobs p) q = (existsSync blobs q && !(q == p)) := by
  induction blobs with
  | nil => rfl
  | cons b bs ih =>
    unfold existsSync removeBlob at ih ⊢
    by_cases hb : b.1 = p
    · by_cases hq : q = p
      · subst hq
        rw [List.filter_cons_of_neg (by simp [hb]), ih]
        simp
      · have hbq : (b.1 == q) = false := by
          rw [hb]; exact beq_false_of_ne (fun e => hq e.symm)
        rw [List.filter_cons_of_neg (by simp [hb]), ih, List.any_cons, hbq]
        simp
    · rw [List.filter_cons_of_pos (by simp [hb]), List.any_cons, ih, List.any_cons]
      by_cases hq : b.1 = q
      · have hqp : (q == p) = false := beq_false_of_ne (by rw [← hq]; exact hb)
        simp [hq, hqp]
      · have hbq : (b.1 == q) = false := beq_false_of_ne hq
        simp [hbq]

theorem existsSync_writeBlob (blobs : List (String × Bytes)) (p q : String) (c : Bytes) :
    existsSync (writeBlob blobs p c) q = (q == p || existsSync blobs q) := by
  have h := existsSync_removeBlob blobs p q
  unfold existsSync writeBlob at *
  rw [List.any_cons, h]
  by_cases hq : q = p
  · subst hq; simp
  · have h1 : (p == q) = false := beq_false_of_ne (fun e => hq e.symm)
    have h2 : (q == p) = false := beq_false_of_ne hq
    simp [h1, h2]

theorem readBlob_removeBlob_of_ne (blobs : List (String × Bytes)) (p q : String) (h : q ≠ p) :
    readBlob (removeBlob blobs p) q = readBlob blobs q := by
  induction blobs with
  | nil => rfl
  | cons b bs ih =>
    unfold readBlob removeBlob at ih ⊢
    by_cases hb : b.1 = p
    · have hbq : (b.1 == q) = false := by
        rw [hb]; exact beq_false_of_ne (fun e => h e.symm)
      rw [List.filter_cons_of_neg (by simp [hb]), ih, List.find?_cons_of_neg _ (by simp [hbq])]
    · rw [List.filter_cons_of_pos (by simp [hb])]
      by_cases hq : b.1 = q
      · rw [List.find?_cons_of_pos _ (by simp [hq]), List.find?_cons_of_pos _ (by simp [hq])]
      · rw [List.find?_cons_of_neg _ (by simp [hq]), List.find?_cons_of_neg _ (by simp [hq]), ih]

theorem readBlob_writeBlob_self (blobs : List (String × Bytes)) (p : String) (c : Bytes) :
    readBlob (writeBlob blobs p c) p = some c := by
  unfold readBlob writeBlob
  rw [List.find?_cons_of_pos _ (by simp)]
  rfl

theorem readBlob_writeBlob_of_ne (blobs : List (String × Bytes)) (p q : String) (c : Bytes)
    (h : q ≠ p) : readBlob (writeBlob blobs p c) q = readBlob blobs q := by
  have h1 := readBlob_removeBlob_of_ne blobs p q h
  unfold readBlob writeBlob at *
  rw [List.find?_cons_of_neg _ (by simpa using fun e => h e.symm), h1]

theorem removeBlob_writeBlob (blobs : List (String × Bytes)) (p : String) (c : Bytes) :
    removeBlob (writeBlob blobs p c) p = removeBlob blobs p := by
  unfold removeBlob writeBlob
  rw [List.filter_cons_of_neg (by simp), removeBlob, List.filter_filter]
  simp

theorem existsSync_eq_isSome (blobs : List (String × Bytes)) (p : String) :
    existsSync blobs p = (readBlob blobs p).isSome := by
  induction blobs with
  | nil => rfl
  | cons b bs ih =>
    unfold existsSync readBlob at ih ⊢
    by_cases hb : b.1 = p
    · rw [List.find?_cons_of_pos _ (by simp [hb])]; simp [hb]
    · rw [List.find?_cons_of_neg _ (by simp [hb]), ← ih]; simp [hb]

theorem unlinkSync_writeBlob (blobs : List (String × Bytes)) (p : String) (c : Bytes) :
    unlinkSync false (writeBlob blobs p c) p = some (removeBlob blobs p) := by
  simp [unlinkSync, existsSync_writeBlob, removeBlob_writeBlob]

theorem unlinkSync_osError (blobs : List (String × Bytes)) (p : String) :
    unlinkSync true blobs p = none := by
  simp [unlinkSync]

/-! ## Keys of the table `files` -/

theorem le_maxRowid (files : List FileRecord) (g : FileRecord) (h : g ∈ files) :
    g.id ≤ maxRowid files := by
  induction files with
  | nil => cases h
  | cons f fs ih =>
    have hm : maxRowid (f :: fs) = max f.id (maxRowid fs) := rfl
    rcases List.mem_cons.mp h with rfl | h'
    · rw [hm]; exact Nat.le_max_left _ _
    · rw [hm]; exact Nat.le_trans (ih h') (Nat.le_max_right _ _)

theorem lt_nextRowid (s : Store) (g : FileRecord) (h : g ∈ s.files) : g.id < nextRowid s := by
  have h1 := le_maxRowid s.files g h
  have h2 : maxRowid s.files ≤ max s.seq (maxRowid s.files) := Nat.le_max_right _ _
  unfold nextRowid
  omega

theorem find?_append_new (files : List FileRecord) (r : FileRecord)
    (h : ∀ g ∈ files, g.id ≠ r.id) :
    (files ++ [r]).find? (fun f => f.id == r.id) = some r := by
  have hnone : files.find? (fun f => f.id == r.id) = none := by
    rw [List.find?_eq_none]
    intro g hg
    simpa using h g hg
  rw [List.find?_append, hnone]
  simp

/-! ## Upload -/

theorem apiUpload_stored (env : UploadEnv) (s : Store) (f : MultipartFile) (u : Option String)
    (hsize : f.content.length ≤ Backend.fileSizeLimit) :
    Backend.apiUpload env s ⟨some f, u⟩ =
      Backend.uploadHandler env
        { s with blobs := writeBlob s.blobs (storagePath env.uniqueName) f.content }
        (some { filename := env.uniqueName, originalname := f.originalname,
                path := storagePath env.uniqueName, size := f.content.length }) u := by
  simp [Backend.apiUpload, Backend.uploadSingle, Nat.not_lt.mpr hsize]

theorem truthy_some (u : String) (h : u ≠ "") : truthy (some u) = some u := by
  simp [truthy, h]

theorem apiUpload_ok (env : UploadEnv) (s : Store) (f : MultipartFile) (u : String)
    (hu : u ≠ "") (hsize : f.content.length ≤ Backend.fileSizeLimit)
    (hins : env.insertErr = false) :
    Backend.apiUpload env s ⟨some f, some u⟩ =
      ({ s with
          blobs := writeBlob s.blobs (storagePath env.uniqueName) f.content,
          files := s.files ++ [{ id := nextRowid s, filename := env.uniqueName,
                                 original_name := f.originalname,
                                 file_path := storagePath env.uniqueName,
                                 file_size := f.content.length, uploaded_by := u,
                                 upload_date := env.currentTimestamp }],
          seq := nextRowid s },
        Outcome.json 200
          (Body.uploaded (nextRowid s) f.originalname f.content.length env.responseDate)) := by
  rw [apiUpload_stored env s f (some u) hsize]
  simp [Backend.uploadHandler, truthy_some u hu, hins, nextRowid, Backend.fileInfo]

/-- Claim C1, as the code has it: when an upload carries a file that multer
stored and an uploader id, the INSERT fails and the compensating
`fs.unlinkSync` works, the response is 500 with `success: false`, no blob is left
at the storage path of this upload, and the tables are as before. -/
theorem upload_insert_failure_removes_blob (env : UploadEnv) (s : Store) (f : MultipartFile)
    (u : String) (hu : u ≠ "") (hsize : f.content.length ≤ Backend.fileSizeLimit)
    (hins : env.insertErr = true) (hunlink : env.unlinkSyncErr = false) :
    (Backend.apiUpload env s ⟨some f, some u⟩).2 =
        Outcome.json 500 (Body.failure "Error guardando archivo en base de datos") ∧
      existsSync (Backend.apiUpload env s ⟨some f, some u⟩).1.blobs
        (storagePath env.uniqueName) = false ∧
      (Backend.apiUpload env s ⟨some f, some u⟩).1.files = s.files ∧
      (Backend.apiUpload env s ⟨some f, some u⟩).1.users = s.users ∧
      (Backend.apiUpload env s ⟨some f, some u⟩).1.seq = s.seq := by
  rw [apiUpload_stored env s f (some u) hsize]
  simp [Backend.uploadHandler, truthy_some u hu, hins, hunlink, unlinkSync_writeBlob,
    existsSync_removeBlob]

theorem upload_insert_failure_removes_blob_witness :
    (Backend.apiUpload uploadInsertFails initialStore sampleRequest).2 =
        Outcome.json 500 (Body.failure "Error guardando archivo en base de datos") ∧
      existsSync (Backend.apiUpload uploadInsertFails initialStore sampleRequest).1.blobs
        (storagePath uploadInsertFails.uniqueName) = false ∧
      (Backend.apiUpload uploadInsertFails initialStore sampleRequest).1.files =
        initialStore.files ∧
      (Backend.apiUpload uploadInsertFails initialStore sampleRequest).1.users =
        initialStore.users ∧
      (Backend.apiUpload uploadInsertFails initialStore sampleRequest).1.seq =
        initialStore.seq :=
  upload_insert_failure_removes_blob uploadInsertFails initialStore
    { originalname := "a.txt", content := [1, 2, 3, 4, 5, 6, 7, 8, 9, 10] } "1"
    (by decide) (by decide) rfl rfl

/-- Claim C1 fails as stated: in this upload the file was stored, the uploader id
is present and the INSERT fails, yet the blob is still at its storage path and no
500 response is returned, because the compensating `fs.unlinkSync` fails too. -/
theorem upload_insert_failure_blob_survives :
    sampleRequest.file.isSome = true ∧ truthy sampleRequest.uploadedBy = some "1" ∧
      uploadInsertAndUnlinkFail.insertErr = true ∧
      existsSync (Backend.apiUpload uploadInsertAndUnlinkFail initialStore sampleRequest).1.blobs
        (storagePath uploadInsertAndUnlinkFail.uniqueName) = true ∧
      (Backend.apiUpload uploadInsertAndUnlinkFail initialStore sampleRequest).2 ≠
        Outcome.json 500 (Body.failure "Error guardando archivo en base de datos") := by
  decide

/-- Claim C3: an upload with a stored file and an uploader id whose INSERT
succeeds leaves the uploaded bytes at the allocated storage path and appends
exactly one FileRecord, under a key no earlier record has, whose `filename` is
the allocated name, `original_name` the name the user sent, `file_size` the
number of bytes written and `uploaded_by` the id sent; the response is
`success: true` with that key, name, size and the response timestamp. -/
theorem upload_success_record_and_blob (env : UploadEnv) (s : Store) (f : MultipartFile)
    (u : String) (hu : u ≠ "") (hsize : f.content.length ≤ Backend.fileSizeLimit)
    (hins : env.insertErr = false) :
    (Backend.apiUpload env s ⟨some f, some u⟩).2 =
        Outcome.json 200
          (Body.uploaded (nextRowid s) f.originalname f.content.length env.responseDate) ∧
      (Backend.apiUpload env s ⟨some f, some u⟩).1.files =
        s.files ++ [{ id := nextRowid s, filename := env.uniqueName,
                      original_name := f.originalname,
                      file_path := storagePath env.uniqueName,
                      file_size := f.content.length, uploaded_by := u,
                      upload_date := env.currentTimestamp }] ∧
      (∀ g ∈ s.files, g.id ≠ nextRowid s) ∧
      existsSync (Backend.apiUpload env s ⟨some f, some u⟩).1.blobs
        (storagePath env.uniqueName) = true ∧
      readBlob (Backend.apiUpload env s ⟨some f, some u⟩).1.blobs
        (storagePath env.uniqueName) = some f.content ∧
      (Backend.apiUpload env s ⟨some f, some u⟩).1.users = s.users := by
  rw [apiUpload_ok env s f u hu hsize hins]
  refine ⟨rfl, rfl, ?_, ?_, ?_, rfl⟩
  · intro g hg
    exact Nat.ne_of_lt (lt_nextRowid s g hg)
  · simp [existsSync_writeBlob]
  · exact readBlob_writeBlob_self _ _ _

theorem upload_success_record_and_blob_witness :
    (Backend.apiUpload uploadOk initialStore sampleRequest).2 =
        Outcome.json 200 (Body.uploaded 1 "a.txt" 10 100000) ∧
      (Backend.apiUpload uploadOk initialStore sampleRequest).1.files =
        [{ id := 1, filename := "1700000000000-42.txt", original_name := "a.txt",
           file_path := "uploads/1700000000000-42.txt", file_size := 10, uploaded_by := "1",
           upload_date := 100 }] ∧
      readBlob (Backend.apiUpload uploadOk initialStore sampleRequest).1.blobs
        "uploads/1700000000000-42.txt" = some [1, 2, 3, 4, 5, 6, 7, 8, 9, 10] := by
  have h := upload_success_record_and_blob uploadOk initialStore
    { originalname := "a.txt", content := [1, 2, 3, 4, 5, 6, 7, 8, 9, 10] } "1"
    (by decide) (by decide) rfl
  exact ⟨h.1, h.2.1, h.2.2.2.2.1⟩

theorem apiUpload_success_inv (env : UploadEnv) (s : Store) (req : UploadRequest)
    (i : Nat) (name : String) (size date : Nat)
    (h : (Backend.apiUpload env s req).2 = Outcome.json 200 (Body.uploaded i name size date)) :
    ∃ f u, req = ⟨some f, some u⟩ ∧ u ≠ "" ∧ f.content.length ≤ Backend.fileSizeLimit ∧
      env.insertErr = false := by
  obtain ⟨file, uploadedBy⟩ := req
  cases file with
  | none => simp [Backend.apiUpload, Backend.uploadSingle, Backend.uploadHandler] at h
  | some f =>
    by_cases hsize : f.content.length ≤ Backend.fileSizeLimit
    · rw [apiUpload_stored env s f uploadedBy hsize] at h
      cases uploadedBy with
      | none =>
        simp only [Backend.uploadHandler, truthy] at h
        split at h <;> simp [errorMiddleware] at h
      | some u =>
        by_cases hu : u = ""
        · simp only [Backend.uploadHandler, truthy, hu, if_true] at h
          split at h <;> simp [errorMiddleware] at h
        · cases hins : env.insertErr with
          | false => exact ⟨f, u, rfl, hu, hsize, rfl⟩
          | true =>
            simp only [Backend.uploadHandler, truthy_some u hu, hins, if_true] at h
            split at h <;> simp at h
    · simp [Backend.apiUpload, Backend.uploadSingle, Nat.lt_of_not_le hsize, errorMiddleware] at h

/-! ## Download -/

theorem find?_none_of_no_id (files : List FileRecord) (fileId : Nat)
    (h : ∀ f ∈ files, f.id ≠ fileId) : files.find? (fun f => f.id == fileId) = none := by
  rw [List.find?_eq_none]
  intro g hg
  simpa using h g hg

theorem find?_some_id (files : List FileRecord) (fileId : Nat) (f : FileRecord)
    (h : files.find? (fun f => f.id == fileId) = some f) : f ∈ files ∧ f.id = fileId := by
  refine ⟨List.mem_of_find?_eq_some h, ?_⟩
  simpa using List.find?_some h

theorem find?_isSome_of_id (files : List FileRecord) (fileId : Nat)
    (h : ∃ f ∈ files, f.id = fileId) :
    ∃ g, files.find? (fun f => f.id == fileId) = some g := by
  obtain ⟨f, hf, hid⟩ := h
  cases hfind : files.find? (fun f => f.id == fileId) with
  | some g => exact ⟨g, rfl⟩
  | none =>
    rw [List.find?_eq_none] at hfind
    exact absurd (by simpa using hid) (hfind f hf)

/-- Claim C5: the backend download answers 404 `Archivo no encontrado` when no
FileRecord has the id, the different 404 `Archivo físico no encontrado` when the
SELECT finds the record and no blob is at its storage path, and streams the blob
when the record and the blob are both there and only then; whatever it answers,
the store is unchanged and no exception escapes. -/
theorem download_missing_record_or_blob (getErr : Bool) (s : Store) (fileId : Nat) :
    ((∀ f ∈ s.files, f.id ≠ fileId) →
        (Backend.apiDownload getErr s fileId).2 =
          Outcome.json 404 (Body.failure "Archivo no encontrado")) ∧
      ((∃ f ∈ s.files, f.id = fileId) →
        (∀ f ∈ s.files, f.id = fileId → existsSync s.blobs f.file_path = false) →
        (Backend.apiDownload false s fileId).2 =
          Outcome.json 404 (Body.failure "Archivo físico no encontrado")) ∧
      (∀ p n c, (Backend.apiDownload getErr s fileId).2 = Outcome.download p n c →
        ∃ f ∈ s.files, f.id = fileId ∧ p = f.file_path ∧ n = f.original_name ∧
          existsSync s.blobs f.file_path = true ∧ readBlob s.blobs f.file_path = some c) ∧
      (∀ f c, s.files.find? (fun g => g.id == fileId) = some f →
        readBlob s.blobs f.file_path = some c →
        (Backend.apiDownload false s fileId).2 =
          Outcome.download f.file_path f.original_name c) ∧
      (Backend.apiDownload getErr s fileId).1 = s ∧
      (Backend.apiDownload getErr s fileId).2 ≠ Outcome.uncaught ∧
      "Archivo no encontrado" ≠ "Archivo físico no encontrado" := by
  refine ⟨?_, ?_, ?_, ?_, ?_, ?_, by decide⟩
  · intro h
    cases getErr <;> simp [Backend.apiDownload, selectFile, find?_none_of_no_id _ _ h]
  · intro hex hblob
    obtain ⟨g, hg⟩ := find?_isSome_of_id _ _ hex
    obtain ⟨hmem, hid⟩ := find?_some_id _ _ _ hg
    simp [Backend.apiDownload, selectFile, hg, hblob g hmem hid]
  · intro p n c h
    cases getErr with
    | true => simp [Backend.apiDownload, selectFile] at h
    | false =>
      cases hfind : s.files.find? (fun f => f.id == fileId) with
      | none => simp [Backend.apiDownload, selectFile, hfind] at h
      | some g =>
        obtain ⟨hmem, hid⟩ := find?_some_id _ _ _ hfind
        cases hex : existsSync s.blobs g.file_path with
        | false => simp [Backend.apiDownload, selectFile, hfind, hex] at h
        | true =>
          cases hread : readBlob s.blobs g.file_path with
          | none => simp [Backend.apiDownload, selectFile, hfind, hex, hread] at h
          | some c' =>
            simp [Backend.apiDownload, selectFile, hfind, hex, hread] at h
            obtain ⟨h1, h2, h3⟩ := h
            exact ⟨g, hmem, hid, h1.symm, h2.symm, hex, by rw [hread, h3]⟩
  · intro f c hfind hread
    have hex : existsSync s.blobs f.file_path = true := by
      rw [existsSync_eq_isSome, hread]; rfl
    simp [Backend.apiDownload, selectFile, hfind, hex, hread]
  · unfold Backend.apiDownload
    split
    · rfl
    · split
      · rfl
      · split <;> rfl
  · unfold Backend.apiDownload
    split
    · simp
    · split
      · simp
      · split <;> simp

theorem download_missing_record_or_blob_witness :
    (Backend.apiDownload false storeWithoutBlob 2).2 =
        Outcome.json 404 (Body.failure "Archivo no encontrado") ∧
      (Backend.apiDownload false storeWithoutBlob 1).2 =
        Outcome.json 404 (Body.failure "Archivo físico no encontrado") ∧
      (Backend.apiDownload false storeWithBlob 1).2 =
        Outcome.download "uploads/1700000000000-42.txt" "a.txt" [1, 2, 3, 4, 5, 6, 7, 8, 9, 10] :=
  ⟨(download_missing_record_or_blob false storeWithoutBlob 2).1 (by decide),
    (download_missing_record_or_blob false storeWithoutBlob 1).2.1 (by decide) (by decide),
    (download_missing_record_or_blob false storeWithBlob 1).2.2.2.1 sampleRecord
      [1, 2, 3, 4, 5, 6, 7, 8, 9, 10] (by decide) (by decide)⟩

/-! ## Failures inside the upload handler -/

/-- Claim C6, evaluated where the code breaks it: when the INSERT of an upload
fails and the compensating `fs.unlinkSync` throws, the exception escapes from the
callback of `db.run`: the caller gets no response at all and the blob stays. -/
theorem upload_double_failure_is_uncaught :
    Backend.apiUpload uploadInsertAndUnlinkFail initialStore sampleRequest =
      ({ initialStore with
          blobs := [("uploads/1700000000000-42.txt", [1, 2, 3, 4, 5, 6, 7, 8, 9, 10])] },
        Outcome.uncaught) := by
  decide

/-! ## Delete -/

theorem selectFile_of_id (env : DeleteEnv) (s : Store) (fileId : Nat)
    (hget : env.getErr = false) (h : ∃ f ∈ s.files, f.id = fileId) :
    ∃ g, selectFile env.getErr s fileId = some g ∧ g ∈ s.files ∧ g.id = fileId := by
  obtain ⟨g, hg⟩ := find?_isSome_of_id _ _ h
  obtain ⟨hmem, hid⟩ := find?_some_id _ _ _ hg
  exact ⟨g, by simp [selectFile, hget, hg], hmem, hid⟩

/-- Claim C7: for an id that has a FileRecord, the delete route of either server
answers `success: true` exactly when the row removal succeeds, that is when the
SELECT and the DELETE statement both go through, whatever the unlink does and
whether or not the blob is there; when the DELETE statement fails the answer is
500 with `success: false`, and on success the rows of that id are gone. -/
theorem delete_succeeds_iff_row_removed (env : DeleteEnv) (s : Store) (fileId : Nat)
    (h : ∃ f ∈ s.files, f.id = fileId) :
    ((Backend.apiDeleteFile env s fileId).2 =
          Outcome.json 200 (Body.message "Archivo eliminado correctamente") ↔
        (env.getErr = false ∧ env.runErr = false)) ∧
      ((WebApp.apiDeleteFile env s fileId).2 =
          Outcome.json 200 (Body.message "Archivo eliminado") ↔
        (env.getErr = false ∧ env.runErr = false)) ∧
      (env.getErr = false → env.runErr = true →
        (Backend.apiDeleteFile env s fileId).2 =
            Outcome.json 500 (Body.failure "Error eliminando archivo") ∧
          (WebApp.apiDeleteFile env s fileId).2 =
            Outcome.json 500 (Body.failure "Error eliminando archivo")) ∧
      (env.getErr = false → env.runErr = false →
        (Backend.apiDeleteFile env s fileId).1.files = deleteRow s.files fileId ∧
          (WebApp.apiDeleteFile env s fileId).1.files = deleteRow s.files fileId) := by
  obtain ⟨getErr, unlinkErr, runErr⟩ := env
  cases getErr with
  | true => simp [Backend.apiDeleteFile, WebApp.apiDeleteFile, selectFile]
  | false =>
    obtain ⟨g, hg, -, -⟩ := selectFile_of_id ⟨false, unlinkErr, runErr⟩ s fileId rfl h
    simp only at hg
    cases runErr <;> simp [Backend.apiDeleteFile, WebApp.apiDeleteFile, hg]

theorem delete_succeeds_iff_row_removed_witness :
    ((Backend.apiDeleteFile deleteOk storeWithBlob 1).2 =
          Outcome.json 200 (Body.message "Archivo eliminado correctamente") ↔
        (deleteOk.getErr = false ∧ deleteOk.runErr = false)) ∧
      ((WebApp.apiDeleteFile deleteOk storeWithBlob 1).2 =
          Outcome.json 200 (Body.message "Archivo eliminado") ↔
        (deleteOk.getErr = false ∧ deleteOk.runErr = false)) :=
  ⟨(delete_succeeds_iff_row_removed deleteOk storeWithBlob 1 (by decide)).1,
    (delete_succeeds_iff_row_removed deleteOk storeWithBlob 1 (by decide)).2.1⟩

/-! ## The order of the list query -/

theorem orderedInsert_eq_cons (a : FileRow) (l : List FileRow) (h : ∀ c ∈ l, newerOrSame a c) :
    l.orderedInsert newerOrSame a = a :: l := by
  cases l with
  | nil => rfl
  | cons c l' => exact List.orderedInsert_of_le _ l' (h c (List.mem_cons_self c l'))

theorem filter_orderedInsert_neg (p : FileRow → Bool) (a : FileRow) (l : List FileRow)
    (ha : p a = false) : (l.orderedInsert newerOrSame a).filter p = l.filter p := by
  induction l with
  | nil => simp [ha]
  | cons b l' ih =>
    by_cases hab : newerOrSame a b
    · rw [List.orderedInsert_of_le _ l' hab, List.filter_cons_of_neg (by simp [ha])]
    · simp only [List.orderedInsert, if_neg hab, List.filter_cons, ih]

theorem filter_orderedInsert_pos (p : FileRow → Bool) (a : FileRow) (l : List FileRow)
    (ha : p a = true) (hl : l.Sorted newerOrSame) :
    (l.orderedInsert newerOrSame a).filter p = (l.filter p).orderedInsert newerOrSame a := by
  induction l with
  | nil => simp [ha]
  | cons b l' ih =>
    have hl' : l'.Sorted newerOrSame := hl.of_cons
    by_cases hab : newerOrSame a b
    · rw [List.orderedInsert_of_le _ l' hab, List.filter_cons_of_pos (by simp [ha])]
      symm
      apply orderedInsert_eq_cons
      intro c hc
      have hc' : c ∈ b :: l' := List.mem_of_mem_filter hc
      rcases List.mem_cons.mp hc' with rfl | hcl
      · exact hab
      · exact IsTrans.trans a b c hab (List.rel_of_sorted_cons hl c hcl)
    · simp only [List.orderedInsert, if_neg hab]
      by_cases hb : p b = true
      · rw [List.filter_cons_of_pos hb, List.filter_cons_of_pos hb, ih hl']
        simp only [List.orderedInsert, if_neg hab]
      · rw [List.filter_cons_of_neg hb, List.filter_cons_of_neg hb, ih hl']

theorem filter_insertionSort (p : FileRow → Bool) (l : List FileRow) :
    (l.insertionSort newerOrSame).filter p = (l.filter p).insertionSort newerOrSame := by
  induction l with
  | nil => rfl
  | cons a l' ih =>
    by_cases ha : p a = true
    · rw [List.filter_cons_of_pos ha, List.insertionSort, List.insertionSort,
        filter_orderedInsert_pos p a _ ha (List.sorted_insertionSort _ _), ih]
    · rw [List.filter_cons_of_neg ha, List.insertionSort,
        filter_orderedInsert_neg p a _ (by simpa using ha), ih]

theorem file_of_mem_leftJoinUsers (reading : IntegerAffinity) (users : List User)
    (f : FileRecord) (r : FileRow)
    (h : r ∈ leftJoinUsers reading users f) : r.file = f := by
  unfold leftJoinUsers at h
  split at h
  · simp at h; rw [h]
  · simp only [List.mem_map] at h
    obtain ⟨v, -, rfl⟩ := h
    rfl

theorem filter_flatMap_leftJoinUsers (reading : IntegerAffinity) (users : List User)
    (files : List FileRecord)
    (fileId : Nat) :
    (files.flatMap (leftJoinUsers reading users)).filter (fun r => !(r.file.id == fileId)) =
      (deleteRow files fileId).flatMap (leftJoinUsers reading users) := by
  induction files with
  | nil => rfl
  | cons f fs ih =>
    unfold deleteRow at ih ⊢
    rw [List.flatMap_cons, List.filter_append, ih]
    by_cases hf : f.id = fileId
    · rw [List.filter_cons_of_neg (by simp [hf])]
      have : (leftJoinUsers reading users f).filter (fun r => !(r.file.id == fileId)) = [] := by
        rw [List.filter_eq_nil_iff]
        intro r hr
        simp [file_of_mem_leftJoinUsers reading users f r hr, hf]
      rw [this, List.nil_append]
    · rw [List.filter_cons_of_pos (by simp [hf]), List.flatMap_cons]
      have : (leftJoinUsers reading users f).filter (fun r => !(r.file.id == fileId)) =
          leftJoinUsers reading users f := by
        rw [List.filter_eq_self]
        intro r hr
        simp [file_of_mem_leftJoinUsers reading users f r hr, hf]
      rw [this]

theorem selectFilesWithUploader_deleteRow (reading : IntegerAffinity) (s : Store) (fileId : Nat)
    (blobs : List (String × Bytes)) :
    selectFilesWithUploader reading { s with blobs := blobs, files := deleteRow s.files fileId } =
      (selectFilesWithUploader reading s).filter (fun r => !(r.file.id == fileId)) := by
  unfold selectFilesWithUploader
  rw [filter_insertionSort, filter_flatMap_leftJoinUsers]

theorem apiDeleteFile_success_inv (env : DeleteEnv) (s : Store) (fileId : Nat)
    (h : (Backend.apiDeleteFile env s fileId).2 =
      Outcome.json 200 (Body.message "Archivo eliminado correctamente")) :
    ∃ g, s.files.find? (fun f => f.id == fileId) = some g ∧ env.getErr = false ∧
      env.runErr = false ∧
      Backend.apiDeleteFile env s fileId =
        ({ s with
            blobs := if existsSync s.blobs g.file_path then
                (unlink env.unlinkErr s.blobs g.file_path).1 else s.blobs,
            files := deleteRow s.files fileId },
          Outcome.json 200 (Body.message "Archivo eliminado correctamente")) := by
  obtain ⟨getErr, unlinkErr, runErr⟩ := env
  cases getErr with
  | true => simp [Backend.apiDeleteFile, selectFile] at h
  | false =>
    cases hfind : s.files.find? (fun f => f.id == fileId) with
    | none => simp [Backend.apiDeleteFile, selectFile, hfind] at h
    | some g =>
      cases runErr with
      | true => simp [Backend.apiDeleteFile, selectFile, hfind] at h
      | false => exact ⟨g, rfl, rfl, rfl, by simp [Backend.apiDeleteFile, selectFile, hfind]⟩

theorem readBlob_unlink_of_ne (osError : Bool) (blobs : List (String × Bytes)) (p q : String)
    (h : q ≠ p) : readBlob (unlink osError blobs p).1 q = readBlob blobs q := by
  unfold unlink unlinkSync
  split
  · rename_i heq
    split at heq
    · injection heq with heq
      rw [← heq]
      exact readBlob_removeBlob_of_ne blobs p q h
    · cases heq
  · rfl

theorem deleteRow_append_new (files : List FileRecord) (r : FileRecord)
    (h : ∀ g ∈ files, g.id ≠ r.id) : deleteRow (files ++ [r]) r.id = files := by
  unfold deleteRow
  rw [List.filter_append, List.filter_cons_of_neg (by simp), List.filter_nil, List.append_nil,
    List.filter_eq_self]
  intro g hg
  simpa using h g hg

theorem length_leftJoinUsers_initial (reading : IntegerAffinity) (f : FileRecord) :
    (leftJoinUsers reading initialStore.users f).length = 1 := by
  unfold leftJoinUsers
  split
  · rfl
  · rename_i u us heq
    have hlen := congrArg List.length heq
    have hle := List.length_filter_le (fun u => reading f.uploaded_by == some u.id)
      initialStore.users
    rw [List.length_map, ← hlen]
    rw [hlen] at hle ⊢
    simp only [List.length_cons] at hle ⊢
    have : initialStore.users.length = 1 := rfl
    omega

/-- Claim C8: however the engine reads the `uploaded_by` texts, when the backend
delete of `fileId` answers `success: true`, no
FileRecord with that id is left, the other FileRecords are the same rows in the
same order, the users are untouched, every blob at a path other than the storage
path of the deleted record is unchanged, and the list query returns its former
rows without those of `fileId`, in the same relative order. Hence an upload that
answered with id `i` followed by a successful delete of `i` gives back the list
result that held before the upload; from the store at start-up the list has one
row after the upload and none after the delete. -/
theorem delete_success_frame (reading : IntegerAffinity) :
    (∀ (env : DeleteEnv) (s : Store) (fileId : Nat),
      (Backend.apiDeleteFile env s fileId).2 =
        Outcome.json 200 (Body.message "Archivo eliminado correctamente") →
      (∀ f ∈ (Backend.apiDeleteFile env s fileId).1.files, f.id ≠ fileId) ∧
        (Backend.apiDeleteFile env s fileId).1.files =
          s.files.filter (fun f => !(f.id == fileId)) ∧
        (Backend.apiDeleteFile env s fileId).1.users = s.users ∧
        (∃ g ∈ s.files, g.id = fileId ∧ ∀ p, p ≠ g.file_path →
          readBlob (Backend.apiDeleteFile env s fileId).1.blobs p = readBlob s.blobs p) ∧
        selectFilesWithUploader reading (Backend.apiDeleteFile env s fileId).1 =
          (selectFilesWithUploader reading s).filter (fun r => !(r.file.id == fileId)) ∧
        (∀ r ∈ selectFilesWithUploader reading (Backend.apiDeleteFile env s fileId).1,
          r.file.id ≠ fileId)) ∧
      (∀ (uenv : UploadEnv) (denv : DeleteEnv) (s : Store) (req : UploadRequest) (i : Nat)
          (name : String) (size date : Nat),
        (Backend.apiUpload uenv s req).2 = Outcome.json 200 (Body.uploaded i name size date) →
        (Backend.apiDeleteFile denv (Backend.apiUpload uenv s req).1 i).2 =
          Outcome.json 200 (Body.message "Archivo eliminado correctamente") →
        selectFilesWithUploader reading
            (Backend.apiDeleteFile denv (Backend.apiUpload uenv s req).1 i).1 =
            selectFilesWithUploader reading s ∧
          (s = initialStore →
            (selectFilesWithUploader reading (Backend.apiUpload uenv s req).1).length = 1 ∧
            selectFilesWithUploader reading
              (Backend.apiDeleteFile denv (Backend.apiUpload uenv s req).1 i).1 = [])) := by
  have part1 : ∀ (env : DeleteEnv) (s : Store) (fileId : Nat),
      (Backend.apiDeleteFile env s fileId).2 =
        Outcome.json 200 (Body.message "Archivo eliminado correctamente") →
      (∀ f ∈ (Backend.apiDeleteFile env s fileId).1.files, f.id ≠ fileId) ∧
        (Backend.apiDeleteFile env s fileId).1.files =
          s.files.filter (fun f => !(f.id == fileId)) ∧
        (Backend.apiDeleteFile env s fileId).1.users = s.users ∧
        (∃ g ∈ s.files, g.id = fileId ∧ ∀ p, p ≠ g.file_path →
          readBlob (Backend.apiDeleteFile env s fileId).1.blobs p = readBlob s.blobs p) ∧
        selectFilesWithUploader reading (Backend.apiDeleteFile env s fileId).1 =
          (selectFilesWithUploader reading s).filter (fun r => !(r.file.id == fileId)) ∧
        (∀ r ∈ selectFilesWithUploader reading (Backend.apiDeleteFile env s fileId).1,
          r.file.id ≠ fileId) := by
    intro env s fileId h
    obtain ⟨g, hfind, -, -, heq⟩ := apiDeleteFile_success_inv env s fileId h
    obtain ⟨hmem, hid⟩ := find?_some_id _ _ _ hfind
    have hlist := selectFilesWithUploader_deleteRow reading s fileId
      (if existsSync s.blobs g.file_path then (unlink env.unlinkErr s.blobs g.file_path).1
        else s.blobs)
    rw [heq]
    refine ⟨?_, rfl, rfl, ⟨g, hmem, hid, ?_⟩, hlist, ?_⟩
    · intro f hf
      have := (List.mem_filter.mp hf).2
      simpa using this
    · intro p hp
      show readBlob (if existsSync s.blobs g.file_path then
        (unlink env.unlinkErr s.blobs g.file_path).1 else s.blobs) p = readBlob s.blobs p
      split
      · exact readBlob_unlink_of_ne _ _ _ _ hp
      · rfl
    · intro r hr
      rw [hlist] at hr
      have := (List.mem_filter.mp hr).2
      simpa using this
  refine ⟨part1, ?_⟩
  intro uenv denv s req i name size date hup hdel
  have hfilter := (part1 denv _ i hdel).2.2.2.2.1
  obtain ⟨f, u, rfl, hu, hsize, hins⟩ := apiUpload_success_inv uenv s _ i name size date hup
  have hfresh : ∀ g ∈ s.files, g.id ≠ nextRowid s := fun g hg =>
    Nat.ne_of_lt (lt_nextRowid s g hg)
  rw [apiUpload_ok uenv s f u hu hsize hins] at hup hfilter hdel ⊢
  injection hup with _ hb
  injection hb with hi _ _ _
  subst hi
  have hrows : (selectFilesWithUploader reading
      { s with
        blobs := writeBlob s.blobs (storagePath uenv.uniqueName) f.content,
        files := s.files ++ [{ id := nextRowid s, filename := uenv.uniqueName,
                               original_name := f.originalname,
                               file_path := storagePath uenv.uniqueName,
                               file_size := f.content.length, uploaded_by := u,
                               upload_date := uenv.currentTimestamp }],
        seq := nextRowid s }).filter (fun r => !(r.file.id == nextRowid s)) =
      selectFilesWithUploader reading s := by
    unfold selectFilesWithUploader
    rw [filter_insertionSort, filter_flatMap_leftJoinUsers]
    show List.insertionSort newerOrSame
      ((deleteRow (s.files ++ [_]) (nextRowid s)).flatMap (leftJoinUsers reading s.users)) = _
    rw [deleteRow_append_new s.files
      { id := nextRowid s, filename := uenv.uniqueName, original_name := f.originalname,
        file_path := storagePath uenv.uniqueName, file_size := f.content.length,
        uploaded_by := u, upload_date := uenv.currentTimestamp } hfresh]
  refine ⟨hfilter.trans hrows, ?_⟩
  intro hs
  subst hs
  refine ⟨?_, hfilter.trans hrows⟩
  unfold selectFilesWithUploader
  rw [List.length_insertionSort]
  show (([] ++ [_]).flatMap (leftJoinUsers reading initialStore.users)).length = 1
  rw [List.nil_append, List.flatMap_cons, List.flatMap_nil, List.append_nil]
  exact length_leftJoinUsers_initial _ _

theorem delete_success_frame_witness :
    selectFilesWithUploader parseDecimal (Backend.apiDeleteFile deleteOk storeWithBlob 1).1 =
        (selectFilesWithUploader parseDecimal storeWithBlob).filter (fun r => !(r.file.id == 1)) ∧
      (selectFilesWithUploader parseDecimal
        (Backend.apiUpload uploadOk initialStore sampleRequest).1).length
        = 1 ∧
      selectFilesWithUploader parseDecimal (Backend.apiDeleteFile deleteOk
        (Backend.apiUpload uploadOk initialStore sampleRequest).1 1).1 = [] :=
  ⟨((delete_success_frame parseDecimal).1 deleteOk storeWithBlob 1 (by decide)).2.2.2.2.1,
    (((delete_success_frame parseDecimal).2 uploadOk deleteOk initialStore sampleRequest 1
      "a.txt" 10 100000
      (by decide) (by decide)).2 rfl).1,
    (((delete_success_frame parseDecimal).2 uploadOk deleteOk initialStore sampleRequest 1
      "a.txt" 10 100000
      (by decide) (by decide)).2 rfl).2⟩

/-! ## List -/

theorem orderedInsert_append_of_older (a : FileRow) (m n : List FileRow)
    (h : ∀ b ∈ m, ¬ newerOrSame a b) :
    (m ++ n).orderedInsert newerOrSame a = m ++ n.orderedInsert newerOrSame a := by
  induction m with
  | nil => rfl
  | cons b m' ih =>
    have hb : ¬ newerOrSame a b := h b (List.mem_cons_self b m')
    rw [List.cons_append, List.orderedInsert, if_neg hb,
      ih (fun c hc => h c (List.mem_cons_of_mem b hc)), List.cons_append]

theorem insertionSort_append_of_older (l₁ l₂ : List FileRow)
    (h : ∀ a ∈ l₁, ∀ b ∈ l₂, ¬ newerOrSame a b) :
    (l₁ ++ l₂).insertionSort newerOrSame =
      l₂.insertionSort newerOrSame ++ l₁.insertionSort newerOrSame := by
  induction l₁ with
  | nil => simp
  | cons a l ih =>
    rw [List.cons_append, List.insertionSort, List.insertionSort,
      ih (fun c hc => h c (List.mem_cons_of_mem a hc)), orderedInsert_append_of_older]
    intro b hb
    exact h a (List.mem_cons_self a l) b ((List.mem_insertionSort _).mp hb)

theorem insertionSort_leftJoinUsers (reading : IntegerAffinity) (users : List User)
    (f : FileRecord) :
    (leftJoinUsers reading users f).insertionSort newerOrSame = leftJoinUsers reading users f := by
  apply List.Sorted.insertionSort_eq
  apply List.pairwise_of_forall_mem_list
  intro a ha b hb
  show b.file.upload_date ≤ a.file.upload_date
  rw [file_of_mem_leftJoinUsers reading users f a ha,
    file_of_mem_leftJoinUsers reading users f b hb]

theorem leftJoinUsers_older (reading : IntegerAffinity) (users : List User) (f g : FileRecord)
    (h : f.upload_date < g.upload_date) :
    ∀ a ∈ leftJoinUsers reading users f, ∀ b ∈ leftJoinUsers reading users g,
      ¬ newerOrSame a b := by
  intro a ha b hb hab
  have hab' : b.file.upload_date ≤ a.file.upload_date := hab
  rw [file_of_mem_leftJoinUsers reading users f a ha,
    file_of_mem_leftJoinUsers reading users g b hb] at hab'
  omega

/-- Claim C10: however the engine reads the `uploaded_by` texts, `GET /api/files`
of either server, when its query executes, answers with the rows of the list
query, and these are sorted by upload
timestamp, newest first: every row is at least as recent as each row after it, in
particular as the next one; three files uploaded at t1 < t2 < t3 come back as the
rows of the third, then of the second, then of the first. No other list of rows is
ever returned. -/
theorem list_newest_first (reading : IntegerAffinity) (s : Store) :
    (Backend.apiFiles reading false s).2 =
        Outcome.json 200 (Body.files (selectFilesWithUploader reading s)) ∧
      (WebApp.apiFiles reading false s).2 =
        Outcome.json 200 (Body.files (selectFilesWithUploader reading s)) ∧
      (∀ err status rows,
        ((Backend.apiFiles reading err s).2 = Outcome.json status (Body.files rows) ∨
          (WebApp.apiFiles reading err s).2 = Outcome.json status (Body.files rows)) →
        rows = selectFilesWithUploader reading s) ∧
      (selectFilesWithUploader reading s).Pairwise
        (fun a b => b.file.upload_date ≤ a.file.upload_date) ∧
      (selectFilesWithUploader reading s).Chain'
        (fun a b => b.file.upload_date ≤ a.file.upload_date) ∧
      (∀ f₁ f₂ f₃ : FileRecord, s.files = [f₁, f₂, f₃] →
        f₁.upload_date < f₂.upload_date → f₂.upload_date < f₃.upload_date →
        selectFilesWithUploader reading s =
          leftJoinUsers reading s.users f₃ ++ leftJoinUsers reading s.users f₂ ++
            leftJoinUsers reading s.users f₁) := by
  have hsorted : (selectFilesWithUploader reading s).Sorted newerOrSame :=
    List.sorted_insertionSort _ _
  refine ⟨rfl, rfl, ?_, hsorted, List.Pairwise.chain' hsorted, ?_⟩
  · intro err status rows h
    cases err with
    | true => rcases h with h | h <;> simp [Backend.apiFiles, WebApp.apiFiles] at h
    | false =>
      rcases h with h | h <;> simp [Backend.apiFiles, WebApp.apiFiles] at h <;> exact h.2.symm
  · intro f₁ f₂ f₃ hfiles h12 h23
    unfold selectFilesWithUploader
    rw [hfiles]
    simp only [List.flatMap_cons, List.flatMap_nil, List.append_nil]
    rw [insertionSort_append_of_older, insertionSort_append_of_older,
      insertionSort_leftJoinUsers, insertionSort_leftJoinUsers, insertionSort_leftJoinUsers]
    · exact leftJoinUsers_older _ _ _ _ h23
    · intro a ha b hb
      rcases List.mem_append.mp hb with hb | hb
      · exact leftJoinUsers_older _ _ _ _ h12 a ha b hb
      · exact leftJoinUsers_older _ _ _ _ (Nat.lt_trans h12 h23) a ha b hb

theorem list_newest_first_witness :
    selectFilesWithUploader parseDecimal storeThreeFiles =
        [⟨{ sampleRecord with id := 3, upload_date := 30 }, some "admin"⟩,
         ⟨{ sampleRecord with id := 2, upload_date := 20, uploaded_by := "7" }, none⟩,
         ⟨{ sampleRecord with id := 1, upload_date := 10 }, some "admin"⟩] ∧
      (Backend.apiFiles parseDecimal false storeThreeFiles).2 =
        Outcome.json 200 (Body.files (selectFilesWithUploader parseDecimal storeThreeFiles)) :=
  ⟨(list_newest_first parseDecimal storeThreeFiles).2.2.2.2.2
      { sampleRecord with id := 1, upload_date := 10 }
      { sampleRecord with id := 2, upload_date := 20, uploaded_by := "7" }
      { sampleRecord with id := 3, upload_date := 30 } rfl (by decide) (by decide),
    (list_newest_first parseDecimal storeThreeFiles).1⟩

/-! ## Deleting twice -/

theorem find?_deleteRow (files : List FileRecord) (fileId : Nat) :
    (deleteRow files fileId).find? (fun f => f.id == fileId) = none := by
  apply find?_none_of_no_id
  intro f hf
  have := (List.mem_filter.mp hf).2
  simpa using this

theorem unlink_fst_true (blobs : List (String × Bytes)) (p : String) :
    (unlink true blobs p).1 = blobs := by
  simp [unlink, unlinkSync]

theorem unlink_fst_false (blobs : List (String × Bytes)) (p : String)
    (h : existsSync blobs p = true) : (unlink false blobs p).1 = removeBlob blobs p := by
  simp [unlink, unlinkSync, h]

theorem existsSync_removeBlob_self (blobs : List (String × Bytes)) (p : String) :
    existsSync (removeBlob blobs p) p = false := by
  simp [existsSync_removeBlob]

/-- Claim C9, as the code has it: a delete of an id that has no FileRecord
answers 404 and changes nothing. For an id that has a FileRecord, when the SELECT
and the DELETE statement of the first call go through (whatever its unlink
does), the first call answers `success: true` and a second call, whatever happens
in it, answers 404 and leaves the store exactly as the first call left it. Two
calls that meet the same outcomes of their steps always leave the store as one
call does. -/
theorem delete_idempotent (env₁ env₂ : DeleteEnv) (s : Store) (fileId : Nat) :
    ((∀ f ∈ s.files, f.id ≠ fileId) →
        Backend.apiDeleteFile env₁ s fileId =
          (s, Outcome.json 404 (Body.failure "Archivo no encontrado"))) ∧
      ((∃ f ∈ s.files, f.id = fileId) → env₁.getErr = false → env₁.runErr = false →
        (Backend.apiDeleteFile env₁ s fileId).2 =
            Outcome.json 200 (Body.message "Archivo eliminado correctamente") ∧
          Backend.apiDeleteFile env₂ (Backend.apiDeleteFile env₁ s fileId).1 fileId =
            ((Backend.apiDeleteFile env₁ s fileId).1,
              Outcome.json 404 (Body.failure "Archivo no encontrado"))) ∧
      (Backend.apiDeleteFile env₁ (Backend.apiDeleteFile env₁ s fileId).1 fileId).1 =
        (Backend.apiDeleteFile env₁ s fileId).1 := by
  obtain ⟨getErr, unlinkErr, runErr⟩ := env₁
  refine ⟨?_, ?_, ?_⟩
  · intro h
    cases getErr <;> simp [Backend.apiDeleteFile, selectFile, find?_none_of_no_id _ _ h]
  · intro h hget hrun
    simp only at hget hrun
    subst hget hrun
    obtain ⟨g, hg⟩ := find?_isSome_of_id _ _ h
    refine ⟨by simp [Backend.apiDeleteFile, selectFile, hg], ?_⟩
    cases hget₂ : env₂.getErr <;>
      simp [Backend.apiDeleteFile, selectFile, hg, hget₂, find?_deleteRow]
  · cases getErr with
    | true => simp [Backend.apiDeleteFile, selectFile]
    | false =>
      cases hfind : s.files.find? (fun f => f.id == fileId) with
      | none => simp [Backend.apiDeleteFile, selectFile, hfind]
      | some g =>
        cases runErr with
        | false => simp [Backend.apiDeleteFile, selectFile, hfind, find?_deleteRow]
        | true =>
          cases hex : existsSync s.blobs g.file_path with
          | false => simp [Backend.apiDeleteFile, selectFile, hfind, hex]
          | true =>
            cases unlinkErr with
            | true => simp [Backend.apiDeleteFile, selectFile, hfind, hex, unlink_fst_true]
            | false =>
              simp [Backend.apiDeleteFile, selectFile, hfind, hex, unlink_fst_false,
                existsSync_removeBlob_self]

theorem delete_idempotent_witness :
    (Backend.apiDeleteFile deleteOk storeWithBlob 1).2 =
        Outcome.json 200 (Body.message "Archivo eliminado correctamente") ∧
      Backend.apiDeleteFile deleteOk (Backend.apiDeleteFile deleteOk storeWithBlob 1).1 1 =
        ((Backend.apiDeleteFile deleteOk storeWithBlob 1).1,
          Outcome.json 404 (Body.failure "Archivo no encontrado")) ∧
      Backend.apiDeleteFile deleteOk storeWithBlob 2 =
        (storeWithBlob, Outcome.json 404 (Body.failure "Archivo no encontrado")) :=
  ⟨((delete_idempotent deleteOk deleteOk storeWithBlob 1).2.1 (by decide) rfl rfl).1,
    ((delete_idempotent deleteOk deleteOk storeWithBlob 1).2.1 (by decide) rfl rfl).2,
    (delete_idempotent deleteOk deleteOk storeWithBlob 2).1 (by decide)⟩

/-! ## The invariant of the backend store -/

theorem storagePath_injective (a b : String) (h : storagePath a = storagePath b) : a = b := by
  unfold storagePath at h
  have h' := congrArg String.data h
  rw [String.data_append, String.data_append] at h'
  exact String.ext (List.append_cancel_left h')

theorem existsSync_unlink_of_ne (osError : Bool) (blobs : List (String × Bytes)) (p q : String)
    (h : q ≠ p) : existsSync (unlink osError blobs p).1 q = existsSync blobs q := by
  rw [existsSync_eq_isSome, existsSync_eq_isSome, readBlob_unlink_of_ne _ _ _ _ h]

theorem existsSync_removeBlob_of_ne (blobs : List (String × Bytes)) (p q : String)
    (h : q ≠ p) : existsSync (removeBlob blobs p) q = existsSync blobs q := by
  simp [existsSync_removeBlob, h]

theorem existsSync_writeBlob_of_ne (blobs : List (String × Bytes)) (p q : String) (c : Bytes)
    (h : q ≠ p) : existsSync (writeBlob blobs p c) q = existsSync blobs q := by
  simp [existsSync_writeBlob, h]

theorem unlinkSync_eq_some (osError : Bool) (blobs blobs' : List (String × Bytes)) (p : String)
    (h : unlinkSync osError blobs p = some blobs') : blobs' = removeBlob blobs p := by
  unfold unlinkSync at h
  split at h
  · injection h with h; exact h.symm
  · cases h

/-- What an upload with a `file` part can leave behind: either the table is as
before and only the blob at the new storage path may have changed, or one record
with the new storage path and a fresh key was appended and its blob is there. -/
theorem apiUpload_effect (env : UploadEnv) (s : Store) (f : MultipartFile)
    (u : Option String) :
    ((Backend.apiUpload env s ⟨some f, u⟩).1.files = s.files ∧
        ∀ q, q ≠ storagePath env.uniqueName →
          existsSync (Backend.apiUpload env s ⟨some f, u⟩).1.blobs q = existsSync s.blobs q) ∨
      (∃ r : FileRecord, r.file_path = storagePath env.uniqueName ∧ r.id = nextRowid s ∧
        (Backend.apiUpload env s ⟨some f, u⟩).1.files = s.files ++ [r] ∧
        (Backend.apiUpload env s ⟨some f, u⟩).1.blobs =
          writeBlob s.blobs (storagePath env.uniqueName) f.content) := by
  by_cases hsize : f.content.length ≤ Backend.fileSizeLimit
  · rw [apiUpload_stored env s f u hsize]
    have hkeep : ∀ q, q ≠ storagePath env.uniqueName →
        existsSync (writeBlob s.blobs (storagePath env.uniqueName) f.content) q =
          existsSync s.blobs q := fun q hq => existsSync_writeBlob_of_ne _ _ _ _ hq
    have hgone : ∀ q, q ≠ storagePath env.uniqueName →
        existsSync (removeBlob (writeBlob s.blobs (storagePath env.uniqueName) f.content)
          (storagePath env.uniqueName)) q = existsSync s.blobs q := fun q hq => by
      rw [existsSync_removeBlob_of_ne _ _ _ hq, existsSync_writeBlob_of_ne _ _ _ _ hq]
    cases hul : unlinkSync env.unlinkSyncErr
        (writeBlob s.blobs (storagePath env.uniqueName) f.content)
        (storagePath env.uniqueName) with
    | none =>
      cases ht : truthy u with
      | none => left; simp only [Backend.uploadHandler, ht, hul]; exact ⟨trivial, hkeep⟩
      | some t =>
        cases hins : env.insertErr with
        | true =>
          left; simp only [Backend.uploadHandler, ht, hul, hins, if_true]; exact ⟨trivial, hkeep⟩
        | false =>
          right
          simp only [Backend.uploadHandler, ht, hins]
          exact ⟨_, rfl, rfl, rfl, rfl⟩
    | some blobs' =>
      have hb := unlinkSync_eq_some _ _ _ _ hul
      subst hb
      cases ht : truthy u with
      | none => left; simp only [Backend.uploadHandler, ht, hul]; exact ⟨trivial, hgone⟩
      | some t =>
        cases hins : env.insertErr with
        | true =>
          left; simp only [Backend.uploadHandler, ht, hul, hins, if_true]; exact ⟨trivial, hgone⟩
        | false =>
          right
          simp only [Backend.uploadHandler, ht, hins]
          exact ⟨_, rfl, rfl, rfl, rfl⟩
  · left
    have hlt : Backend.fileSizeLimit < f.content.length := Nat.lt_of_not_le hsize
    simp only [Backend.apiUpload, Backend.uploadSingle, hlt, if_true]
    exact ⟨trivial, fun q hq => existsSync_removeBlob_of_ne _ _ _ hq⟩

theorem storeInv_upload (used : List String) (env : UploadEnv) (s : Store) (f : MultipartFile)
    (u : Option String) (hinv : StoreInv used s) (hnew : env.uniqueName ∉ used) :
    StoreInv (env.uniqueName :: used) (Backend.apiUpload env s ⟨some f, u⟩).1 := by
  obtain ⟨h1, h2, h3⟩ := hinv
  have hpath : ∀ g ∈ s.files, g.file_path ≠ storagePath env.uniqueName := by
    intro g hg heq
    obtain ⟨n, hn, hgn⟩ := h2 g hg
    rw [hgn] at heq
    exact hnew (storagePath_injective _ _ heq ▸ hn)
  rcases apiUpload_effect env s f u with ⟨hfiles, hblobs⟩ | ⟨r, hrp, hrid, hfiles, hblobs⟩
  · refine ⟨?_, ?_, ?_⟩
    · intro g hg
      rw [hfiles] at hg
      rw [hblobs _ (hpath g hg)]
      exact h1 g hg
    · intro g hg
      rw [hfiles] at hg
      obtain ⟨n, hn, hgn⟩ := h2 g hg
      exact ⟨n, List.mem_cons_of_mem _ hn, hgn⟩
    · rw [hfiles]
      exact h3
  · refine ⟨?_, ?_, ?_⟩
    · intro g hg
      rw [hfiles] at hg
      rw [hblobs, existsSync_writeBlob]
      rcases List.mem_append.mp hg with hg | hg
      · rw [h1 g hg]; simp
      · rw [List.mem_singleton.mp hg, hrp]; simp
    · intro g hg
      rw [hfiles] at hg
      rcases List.mem_append.mp hg with hg | hg
      · obtain ⟨n, hn, hgn⟩ := h2 g hg
        exact ⟨n, List.mem_cons_of_mem _ hn, hgn⟩
      · exact ⟨env.uniqueName, List.mem_cons_self _ _, by rw [List.mem_singleton.mp hg, hrp]⟩
    · intro g hg g' hg' heq
      rw [hfiles] at hg hg'
      rcases List.mem_append.mp hg with hg | hg <;> rcases List.mem_append.mp hg' with hg' | hg'
      · exact h3 g hg g' hg' heq
      · rw [List.mem_singleton.mp hg', hrp] at heq
        exact absurd heq (hpath g hg)
      · rw [List.mem_singleton.mp hg, hrp] at heq
        exact absurd heq.symm (hpath g' hg')
      · rw [List.mem_singleton.mp hg, List.mem_singleton.mp hg']

theorem storeInv_upload_without_file (used : List String) (env : UploadEnv) (s : Store)
    (u : Option String) (hinv : StoreInv used s) :
    StoreInv used (Backend.apiUpload env s ⟨none, u⟩).1 := hinv

theorem storeInv_delete (used : List String) (env : DeleteEnv) (s : Store) (fileId : Nat)
    (hinv : StoreInv used s) (henv : removalLost env = false) :
    StoreInv used (Backend.apiDeleteFile env s fileId).1 := by
  obtain ⟨h1, h2, h3⟩ := hinv
  obtain ⟨getErr, unlinkErr, runErr⟩ := env
  cases getErr with
  | true => simpa [Backend.apiDeleteFile, selectFile] using ⟨h1, h2, h3⟩
  | false =>
    cases hfind : s.files.find? (fun f => f.id == fileId) with
    | none => simpa [Backend.apiDeleteFile, selectFile, hfind] using ⟨h1, h2, h3⟩
    | some g =>
      obtain ⟨hg, hgid⟩ := find?_some_id _ _ _ hfind
      have hex := h1 g hg
      cases runErr with
      | true =>
        have hu : unlinkErr = true := by
          cases unlinkErr with
          | true => rfl
          | false => simp [removalLost] at henv
        subst hu
        simpa [Backend.apiDeleteFile, selectFile, hfind, hex, unlink_fst_true]
          using ⟨h1, h2, h3⟩
      | false =>
        have hsub : ∀ f ∈ deleteRow s.files fileId, f ∈ s.files ∧ f.id ≠ fileId := by
          intro f hf
          have hf' := List.mem_filter.mp hf
          exact ⟨hf'.1, by simpa using hf'.2⟩
        have hstate : (Backend.apiDeleteFile ⟨false, unlinkErr, false⟩ s fileId).1 =
            { s with blobs := (unlink unlinkErr s.blobs g.file_path).1,
                     files := deleteRow s.files fileId } := by
          simp [Backend.apiDeleteFile, selectFile, hfind, hex]
        rw [hstate]
        refine ⟨?_, ?_, ?_⟩
        · intro f hf
          obtain ⟨hfm, hfid⟩ := hsub f hf
          have hne : f.file_path ≠ g.file_path := by
            intro heq
            exact hfid ((h3 f hfm g hg heq).trans hgid)
          show existsSync (unlink unlinkErr s.blobs g.file_path).1 f.file_path = true
          rw [existsSync_unlink_of_ne _ _ _ _ hne]
          exact h1 f hfm
        · intro f hf
          exact h2 f (hsub f hf).1
        · intro f hf f' hf' heq
          exact h3 f (hsub f hf).1 f' (hsub f' hf').1 heq

theorem storeInv_run (ops : List Op) :
    ∀ (used : List String) (s : Store), StoreInv used s →
      (allocatedNames ops).Nodup → (∀ n ∈ allocatedNames ops, n ∉ used) →
      noRemovalLost ops = true → ∃ used', StoreInv used' (Backend.run s ops) := by
  induction ops with
  | nil => intro used s hinv _ _ _; exact ⟨used, hinv⟩
  | cons op rest ih =>
    intro used s hinv hnodup hfresh hdel
    have hdel' : noRemovalLost rest = true := by
      simp only [noRemovalLost, List.all_cons, Bool.and_eq_true] at hdel ⊢
      exact hdel.2
    show ∃ used', StoreInv used' (Backend.run (Backend.step s op) rest)
    cases op with
    | delete env fileId =>
      have henv : removalLost env = false := by
        simp only [noRemovalLost, List.all_cons, Bool.and_eq_true] at hdel
        simpa using hdel.1
      exact ih used _ (storeInv_delete used env s fileId hinv henv) hnodup hfresh hdel'
    | upload env req =>
      obtain ⟨file, u⟩ := req
      cases file with
      | none =>
        exact ih used _ (storeInv_upload_without_file used env s u hinv) hnodup hfresh hdel'
      | some f =>
        have hnames : allocatedNames (Op.upload env ⟨some f, u⟩ :: rest) =
            env.uniqueName :: allocatedNames rest := rfl
        rw [hnames] at hnodup hfresh
        have hnd := List.nodup_cons.mp hnodup
        refine ih (env.uniqueName :: used) _
          (storeInv_upload used env s f u hinv (hfresh _ (List.mem_cons_self _ _))) hnd.2 ?_ hdel'
        intro n hn hmem
        rcases List.mem_cons.mp hmem with rfl | hmem
        · exact hnd.1 hn
        · exact hfresh n (List.mem_cons_of_mem _ hn) hmem

/-- Claim C2, as the code has it: in every store reached from the store at
start-up by uploads and deletes, with pairwise distinct allocated stored names
and whatever the outcome of each INSERT, each SELECT and each unlink, every
FileRecord has a blob at its storage path, provided no delete has its DELETE
statement fail after its unlink went through. -/
theorem consistent_of_run (ops : List Op) (hnames : (allocatedNames ops).Nodup)
    (hdel : noRemovalLost ops = true) : Consistent (Backend.run initialStore ops) := by
  have hinit : StoreInv [] initialStore :=
    ⟨fun f hf => (by cases hf), fun f hf => (by cases hf), fun f hf => (by cases hf)⟩
  obtain ⟨used', hinv⟩ := storeInv_run ops [] initialStore hinit hnames
    (fun n _ hmem => by cases hmem) hdel
  exact hinv.1

theorem consistent_of_run_witness :
    (allocatedNames sampleRun).Nodup ∧ noRemovalLost sampleRun = true ∧
      Consistent (Backend.run initialStore sampleRun) :=
  ⟨by decide, by decide, consistent_of_run sampleRun (by decide) (by decide)⟩

/-- Claim C2 fails as stated: after an upload that works and a delete whose
unlink works and whose DELETE statement fails, the stored names are pairwise
distinct and the FileRecord is still in the table while its blob is gone. -/
theorem orphan_row_after_failed_delete :
    (allocatedNames uploadThenFailedDelete).Nodup ∧
      ¬ Consistent (Backend.run initialStore uploadThenFailedDelete) := by
  decide

/-- Claim C9 fails as stated: the id 1 has a FileRecord, yet the first delete
answers 500 because its DELETE statement fails, and a second delete then changes
the store again (it removes the row the first one left). -/
theorem delete_twice_differs_after_failed_removal :
    (∃ f ∈ storeWithBlob.files, f.id = 1) ∧
      (Backend.apiDeleteFile deleteRunFails storeWithBlob 1).2 =
        Outcome.json 500 (Body.failure "Error eliminando archivo") ∧
      (Backend.apiDeleteFile deleteOk
          (Backend.apiDeleteFile deleteRunFails storeWithBlob 1).1 1).1 ≠
        (Backend.apiDeleteFile deleteRunFails storeWithBlob 1).1 := by
  decide

/-! ## One row per FileRecord -/

theorem filter_key_length_le_one (users : List User) (key : Option Nat)
    (hkey : (users.map User.id).Nodup) :
    (users.filter (fun u => key == some u.id)).length ≤ 1 := by
  induction users with
  | nil => simp
  | cons u us ih =>
    rw [List.map_cons, List.nodup_cons] at hkey
    by_cases hu : key = some u.id
    · have hnone : us.filter (fun v => key == some v.id) = [] := by
        rw [List.filter_eq_nil_iff]
        intro v hv hmatch
        have hv' : key = some v.id := by simpa using hmatch
        rw [hu] at hv'
        exact hkey.1 (List.mem_map.mpr ⟨v, hv, (Option.some.inj hv').symm⟩)
      rw [List.filter_cons_of_pos (by simp [hu]), hnone]
      simp
    · rw [List.filter_cons_of_neg (by simp [hu])]
      exact ih hkey.2

theorem leftJoinUsers_of_nodup (reading : IntegerAffinity) (users : List User) (f : FileRecord)
    (hkey : (users.map User.id).Nodup) :
    leftJoinUsers reading users f =
      [⟨f, (users.find? (fun u => reading f.uploaded_by == some u.id)).map
        User.username⟩] := by
  have hlen := filter_key_length_le_one users (reading f.uploaded_by) hkey
  have hhead := List.filter_head? (fun u => reading f.uploaded_by == some u.id) users
  unfold leftJoinUsers
  split
  · rename_i heq
    rw [heq] at hhead
    rw [← hhead]; rfl
  · rename_i u us heq
    rw [heq] at hhead hlen
    have hus : us = [] := by
      cases us with
      | nil => rfl
      | cons v vs => simp at hlen
    rw [← hhead, hus]; rfl

theorem flatMap_leftJoinUsers_of_nodup (reading : IntegerAffinity) (users : List User)
    (files : List FileRecord)
    (hkey : (users.map User.id).Nodup) :
    files.flatMap (leftJoinUsers reading users) =
      files.map (fun f => ⟨f, (users.find? (fun u => reading f.uploaded_by == some u.id)).map
        User.username⟩) := by
  induction files with
  | nil => rfl
  | cons f fs ih =>
    rw [List.flatMap_cons, ih, leftJoinUsers_of_nodup reading users f hkey]
    rfl

/-- Claim C11: on a store whose `users` table respects its PRIMARY KEY (no two
users share an id), and however the engine reads the `uploaded_by` texts, the
backend list is a pure read without filtering: whatever the query does the store
is unchanged, and when the query executes the rows are the FileRecords of the
table, each exactly as often as it is there (none left out, none doubled), each
with the username of the user whose id its `uploaded_by` is read as, or with no
name when it is read as the id of no user. In particular a record whose
`uploaded_by` is the decimal numeral of a user's id, where the engine reads that
numeral as the id, carries that user's name. -/
theorem list_one_row_per_record (reading : IntegerAffinity) (s : Store)
    (hkey : (s.users.map User.id).Nodup) :
    (∀ err, (Backend.apiFiles reading err s).1 = s) ∧
      (Backend.apiFiles reading false s).2 =
        Outcome.json 200 (Body.files (selectFilesWithUploader reading s)) ∧
      ((selectFilesWithUploader reading s).map FileRow.file).Perm s.files ∧
      (selectFilesWithUploader reading s).length = s.files.length ∧
      (∀ r ∈ selectFilesWithUploader reading s,
        (∀ u ∈ s.users, reading r.file.uploaded_by = some u.id →
          r.uploaded_by_name = some u.username) ∧
        ((∀ u ∈ s.users, reading r.file.uploaded_by ≠ some u.id) →
          r.uploaded_by_name = none) ∧
        (∀ u ∈ s.users, reading (toString u.id) = some u.id →
          r.file.uploaded_by = toString u.id → r.uploaded_by_name = some u.username)) := by
  have hrows := flatMap_leftJoinUsers_of_nodup reading s.users s.files hkey
  have hperm : (selectFilesWithUploader reading s).Perm
      (s.files.map (fun f => (⟨f, (s.users.find?
        (fun u => reading f.uploaded_by == some u.id)).map User.username⟩ : FileRow))) := by
    unfold selectFilesWithUploader
    rw [hrows]
    exact List.perm_insertionSort _ _
  refine ⟨?_, rfl, ?_, ?_, ?_⟩
  · intro err
    cases err <;> rfl
  · have h1 := hperm.map FileRow.file
    have h2 : (s.files.map (fun f => (⟨f, (s.users.find?
        (fun u => reading f.uploaded_by == some u.id)).map User.username⟩ : FileRow))).map
        FileRow.file = s.files := by
      rw [List.map_map]
      exact List.map_id'' (fun _ => rfl) s.files
    rw [h2] at h1
    exact h1
  · rw [hperm.length_eq, List.length_map]
  · intro r hr
    obtain ⟨f, -, rfl⟩ := List.mem_map.mp (hperm.mem_iff.mp hr)
    have hname : ∀ u ∈ s.users, reading f.uploaded_by = some u.id →
        Option.map User.username
          (s.users.find? (fun u => reading f.uploaded_by == some u.id)) = some u.username := by
      intro u hu hmatch
      cases hfind : s.users.find? (fun u => reading f.uploaded_by == some u.id) with
      | none =>
        rw [List.find?_eq_none] at hfind
        exact absurd (by simpa using hmatch) (hfind u hu)
      | some v =>
        have hv := List.mem_of_find?_eq_some hfind
        have hvm : reading f.uploaded_by = some v.id := by
          simpa using List.find?_some hfind
        have hid : v.id = u.id := Option.some.inj (hvm.symm.trans hmatch)
        have huv : v = u := List.inj_on_of_nodup_map hkey hv hu hid
        rw [huv]; rfl
    refine ⟨hname, ?_, ?_⟩
    · intro hnone
      show Option.map User.username _ = none
      have : s.users.find? (fun u => reading f.uploaded_by == some u.id) = none := by
        rw [List.find?_eq_none]
        intro u hu
        simpa using hnone u hu
      rw [this]; rfl
    · intro u hu hread htext
      have htext' : f.uploaded_by = toString u.id := htext
      exact hname u hu (by rw [htext']; exact hread)

theorem list_one_row_per_record_witness :
    (storeThreeFiles.users.map User.id).Nodup ∧
      ((selectFilesWithUploader parseDecimal storeThreeFiles).map FileRow.file).Perm
        storeThreeFiles.files ∧
      (selectFilesWithUploader parseDecimal storeThreeFiles).length = 3 ∧
      (∀ r ∈ selectFilesWithUploader parseDecimal storeThreeFiles,
        (r.file.uploaded_by = "1" → r.uploaded_by_name = some "admin") ∧
          (r.file.uploaded_by = "7" → r.uploaded_by_name = none)) :=
  ⟨by decide,
    (list_one_row_per_record parseDecimal storeThreeFiles (by decide)).2.2.1,
    (list_one_row_per_record parseDecimal storeThreeFiles (by decide)).2.2.2.1,
    fun r hr =>
      ⟨fun h => ((list_one_row_per_record parseDecimal storeThreeFiles (by decide)).2.2.2.2 r hr).1
          { id := 1, username := "admin", password := "123456", created_at := 0 }
          (List.mem_singleton.mpr rfl) (by rw [h]; decide),
        fun h => ((list_one_row_per_record parseDecimal storeThreeFiles (by decide)).2.2.2.2 r
          hr).2.1 (fun u hu => by
            rw [h, List.mem_singleton.mp hu]
            decide)⟩⟩

/-! ## Upload without an uploader id -/

theorem removeBlob_of_not_exists (blobs : List (String × Bytes)) (p : String)
    (h : existsSync blobs p = false) : removeBlob blobs p = blobs := by
  unfold removeBlob
  rw [List.filter_eq_self]
  intro b hb
  unfold existsSync at h
  rw [List.any_eq_false] at h
  simpa using h b hb

/-- Claim C12, as the code has it: an upload with a stored file and a missing or
empty `uploadedBy`, whose `fs.unlinkSync` is not refused, is answered with 400
and `success: false`; no blob is left at its storage path, the tables are as
before and so is every blob at another path. When no blob was at the allocated
storage path before the call, the store after the call is exactly the store
before it. -/
theorem upload_without_uploader_rejected (env : UploadEnv) (s : Store) (f : MultipartFile)
    (u : Option String) (hu : u = none ∨ u = some "")
    (hsize : f.content.length ≤ Backend.fileSizeLimit) (hunlink : env.unlinkSyncErr = false) :
    (Backend.apiUpload env s ⟨some f, u⟩).2 =
        Outcome.json 400 (Body.failure "ID de usuario requerido") ∧
      (Backend.apiUpload env s ⟨some f, u⟩).1 =
        { s with blobs := removeBlob s.blobs (storagePath env.uniqueName) } ∧
      existsSync (Backend.apiUpload env s ⟨some f, u⟩).1.blobs (storagePath env.uniqueName) =
        false ∧
      (∀ q, q ≠ storagePath env.uniqueName →
        readBlob (Backend.apiUpload env s ⟨some f, u⟩).1.blobs q = readBlob s.blobs q) ∧
      (existsSync s.blobs (storagePath env.uniqueName) = false →
        (Backend.apiUpload env s ⟨some f, u⟩).1 = s) := by
  have ht : truthy u = none := by
    rcases hu with rfl | rfl <;> rfl
  have heq : Backend.apiUpload env s ⟨some f, u⟩ =
      ({ s with blobs := removeBlob s.blobs (storagePath env.uniqueName) },
        Outcome.json 400 (Body.failure "ID de usuario requerido")) := by
    rw [apiUpload_stored env s f u hsize]
    simp [Backend.uploadHandler, ht, hunlink, unlinkSync_writeBlob]
  rw [heq]
  refine ⟨rfl, rfl, existsSync_removeBlob_self _ _, ?_, ?_⟩
  · intro q hq
    exact readBlob_removeBlob_of_ne _ _ _ hq
  · intro hfresh
    show { s with blobs := removeBlob s.blobs (storagePath env.uniqueName) } = s
    rw [removeBlob_of_not_exists _ _ hfresh]

theorem upload_without_uploader_rejected_witness :
    Backend.apiUpload uploadOk initialStore requestWithoutUploader =
      (initialStore, Outcome.json 400 (Body.failure "ID de usuario requerido")) := by
  have h := upload_without_uploader_rejected uploadOk initialStore
    { originalname := "a.txt", content := [1, 2, 3, 4, 5, 6, 7, 8, 9, 10] } none
    (Or.inl rfl) (by decide) rfl
  exact Prod.ext (h.2.2.2.2 rfl) h.1

/-- Claim C12 fails as stated, in two ways. When `fs.unlinkSync` is refused, an
upload with a file and no `uploadedBy` is answered with 500 by the error
middleware and its blob stays on disk. When the allocated stored name is the name
of a blob already there, the upload is answered with 400 but that earlier blob is
gone afterwards. -/
theorem upload_without_uploader_leaves_or_loses_blob :
    Backend.apiUpload uploadUnlinkFails initialStore requestWithoutUploader =
        ({ initialStore with
            blobs := [("uploads/1700000000000-42.txt", [1, 2, 3, 4, 5, 6, 7, 8, 9, 10])] },
          Outcome.json 500 (Body.failure "Error interno del servidor")) ∧
      Backend.apiUpload uploadOk storeWithBlob requestWithoutUploader =
        (storeWithoutBlob, Outcome.json 400 (Body.failure "ID de usuario requerido")) ∧
      storeWithoutBlob ≠ storeWithBlob := by
  decide

/-! ## Register -/

theorem length_le_jsLength (text : String) : text.length ≤ jsLength text := by
  have h : ∀ l : List Char, l.length ≤ (l.map (fun c => if c.toNat < 65536 then 1 else 2)).sum := by
    intro l
    induction l with
    | nil => simp
    | cons c cs ih =>
      simp only [List.map_cons, List.sum_cons, List.length_cons]
      split <;> omega
  exact h text.data

theorem ne_empty_of_length (text : String) (h : 3 ≤ text.length) : text ≠ "" := by
  intro he
  rw [he] at h
  exact absurd h (by decide)

theorem le_maxUserRowid (users : List User) (u : User) (h : u ∈ users) :
    u.id ≤ maxUserRowid users := by
  induction users with
  | nil => cases h
  | cons v vs ih =>
    have hm : maxUserRowid (v :: vs) = max v.id (maxUserRowid vs) := rfl
    rcases List.mem_cons.mp h with rfl | h'
    · rw [hm]; exact Nat.le_max_left _ _
    · rw [hm]; exact Nat.le_trans (ih h') (Nat.le_max_right _ _)

theorem lt_nextUserRowid (s : Store) (u : User) (h : u ∈ s.users) : u.id < nextUserRowid s := by
  have h1 := le_maxUserRowid s.users u h
  have h2 : maxUserRowid s.users ≤ max s.userSeq (maxUserRowid s.users) := Nat.le_max_right _ _
  unfold nextUserRowid
  omega

theorem apiRegister_new (env : RegisterEnv) (s : Store) (username password : String)
    (hnew : ∀ u ∈ s.users, u.username ≠ username) (hu : 3 ≤ username.length)
    (hp : 3 ≤ password.length) (henv : env.insertErr = false) :
    Backend.apiRegister env s ⟨some username, some password⟩ =
      ({ s with
          users := s.users ++ [{ id := nextUserRowid s, username := username,
                                 password := password,
                                 created_at := env.currentTimestamp }],
          userSeq := nextUserRowid s },
        Outcome.json 200 (Body.user (nextUserRowid s) username)) := by
  have h1 : ¬ jsLength username < 3 := Nat.not_lt.mpr (Nat.le_trans hu (length_le_jsLength _))
  have h2 : ¬ jsLength password < 3 := Nat.not_lt.mpr (Nat.le_trans hp (length_le_jsLength _))
  have h3 : insertUserFails env s username = false := by
    unfold insertUserFails
    rw [henv, Bool.false_or, List.any_eq_false]
    intro u hu'
    simpa using hnew u hu'
  simp [Backend.apiRegister, truthy_some _ (ne_empty_of_length _ hu),
    truthy_some _ (ne_empty_of_length _ hp), h1, h2, h3]

theorem apiRegister_taken (env : RegisterEnv) (s : Store) (username : String)
    (password : Option String) (htaken : ∃ u ∈ s.users, u.username = username) :
    (Backend.apiRegister env s ⟨some username, password⟩).1 = s ∧
      (∃ msg, (Backend.apiRegister env s ⟨some username, password⟩).2 =
        Outcome.json 400 (Body.failure msg)) ∧
      (∀ p, password = some p → 3 ≤ username.length → 3 ≤ p.length →
        (Backend.apiRegister env s ⟨some username, password⟩).2 =
          Outcome.json 400 (Body.failure "Usuario ya existe")) := by
  have hfail : insertUserFails env s username = true := by
    obtain ⟨u, hu, hname⟩ := htaken
    unfold insertUserFails
    rw [Bool.or_eq_true]
    right
    exact List.any_eq_true.mpr ⟨u, hu, by simp [hname]⟩
  have hcases : Backend.apiRegister env s ⟨some username, password⟩ =
        (s, Outcome.json 400 (Body.failure "Usuario y contraseña requeridos")) ∨
      Backend.apiRegister env s ⟨some username, password⟩ =
        (s, Outcome.json 400
          (Body.failure "Usuario y contraseña deben tener al menos 3 caracteres")) ∨
      Backend.apiRegister env s ⟨some username, password⟩ =
        (s, Outcome.json 400 (Body.failure "Usuario ya existe")) := by
    by_cases hne : username = ""
    · left; simp [Backend.apiRegister, truthy, hne]
    · cases hpw : truthy password with
      | none => left; simp [Backend.apiRegister, truthy_some _ hne, hpw]
      | some p =>
        by_cases hlen : jsLength username < 3 ∨ jsLength p < 3
        · right; left
          simp [Backend.apiRegister, truthy_some _ hne, hpw, hlen]
        · right; right
          simp [Backend.apiRegister, truthy_some _ hne, hpw, hlen, hfail]
  refine ⟨?_, ?_, ?_⟩
  · rcases hcases with h | h | h <;> rw [h]
  · rcases hcases with h | h | h <;> rw [h] <;> exact ⟨_, rfl⟩
  · intro p hp hu hpl
    subst hp
    have h1 : ¬ jsLength username < 3 := Nat.not_lt.mpr (Nat.le_trans hu (length_le_jsLength _))
    have h2 : ¬ jsLength p < 3 := Nat.not_lt.mpr (Nat.le_trans hpl (length_le_jsLength _))
    simp [Backend.apiRegister, truthy_some _ (ne_empty_of_length _ hu),
      truthy_some _ (ne_empty_of_length _ hpl), h1, h2, hfail]

/-- Claim C13: for a username no row of `users` has yet, with username and
password of at least 3 characters, a register call whose INSERT is not refused
for another reason answers `success: true` with a key no earlier user has and
that username, and appends exactly that user; a second register call with the
same username, whatever its password and whatever happens to its INSERT, answers
400 with `success: false` (`Usuario ya existe` when its password has at least 3
characters) and leaves the store as the first call left it. -/
theorem register_then_duplicate (s : Store) (username password : String) (now : Nat)
    (env₂ : RegisterEnv) (password₂ : Option String)
    (hnew : ∀ u ∈ s.users, u.username ≠ username) (hu : 3 ≤ username.length)
    (hp : 3 ≤ password.length) :
    (Backend.apiRegister ⟨false, now⟩ s ⟨some username, some password⟩).2 =
        Outcome.json 200 (Body.user (nextUserRowid s) username) ∧
      (∀ u ∈ s.users, u.id ≠ nextUserRowid s) ∧
      (Backend.apiRegister ⟨false, now⟩ s ⟨some username, some password⟩).1.users =
        s.users ++ [{ id := nextUserRowid s, username := username, password := password,
                      created_at := now }] ∧
      (Backend.apiRegister env₂
          (Backend.apiRegister ⟨false, now⟩ s ⟨some username, some password⟩).1
          ⟨some username, password₂⟩).1 =
        (Backend.apiRegister ⟨false, now⟩ s ⟨some username, some password⟩).1 ∧
      (∃ msg, (Backend.apiRegister env₂
          (Backend.apiRegister ⟨false, now⟩ s ⟨some username, some password⟩).1
          ⟨some username, password₂⟩).2 = Outcome.json 400 (Body.failure msg)) ∧
      (∀ p, password₂ = some p → 3 ≤ p.length →
        (Backend.apiRegister env₂
          (Backend.apiRegister ⟨false, now⟩ s ⟨some username, some password⟩).1
          ⟨some username, password₂⟩).2 = Outcome.json 400 (Body.failure "Usuario ya existe")) := by
  have hfirst := apiRegister_new ⟨false, now⟩ s username password hnew hu hp rfl
  have htaken : ∃ u ∈ (Backend.apiRegister ⟨false, now⟩ s ⟨some username, some password⟩).1.users,
      u.username = username := by
    rw [hfirst]
    exact ⟨_, List.mem_append_right _ (List.mem_singleton_self _), rfl⟩
  obtain ⟨k1, k2, k3⟩ := apiRegister_taken env₂ _ username password₂ htaken
  refine ⟨by rw [hfirst], fun u hmem => Nat.ne_of_lt (lt_nextUserRowid s u hmem),
    by rw [hfirst], k1, k2, fun p hp₂ hpl => k3 p hp₂ hu hpl⟩

theorem register_then_duplicate_witness :
    (Backend.apiRegister ⟨false, 7⟩ initialStore ⟨some "bob", some "secret"⟩).2 =
        Outcome.json 200 (Body.user 2 "bob") ∧
      (Backend.apiRegister ⟨false, 8⟩
          (Backend.apiRegister ⟨false, 7⟩ initialStore ⟨some "bob", some "secret"⟩).1
          ⟨some "bob", some "other"⟩).2 = Outcome.json 400 (Body.failure "Usuario ya existe") :=
  ⟨(register_then_duplicate initialStore "bob" "secret" 7 ⟨false, 8⟩ (some "other")
      (by decide) (by decide) (by decide)).1,
    (register_then_duplicate initialStore "bob" "secret" 7 ⟨false, 8⟩ (some "other")
      (by decide) (by decide) (by decide)).2.2.2.2.2 "other" rfl (by decide)⟩

/-! ## Stored names -/

theorem digitChar_isDigit (m : Nat) (h : m < 10) :
    (Nat.digitChar m).isDigit = true ∧ (Nat.digitChar m).toNat - 48 = m := by
  interval_cases m <;> decide

theorem toDigitsCore_digits (fuel : Nat) :
    ∀ (n : Nat) (ds : List Char), n < fuel →
      (Nat.toDigitsCore 10 fuel n ds).all Char.isDigit = ds.all Char.isDigit ∧
      (Nat.toDigitsCore 10 fuel n ds).foldl (fun k c => 10 * k + (c.toNat - 48)) 0 =
        ds.foldl (fun k c => 10 * k + (c.toNat - 48)) n ∧
      Nat.toDigitsCore 10 fuel n ds ≠ [] := by
  induction fuel with
  | zero => intro n ds h; omega
  | succ fuel ih =>
    intro n ds h
    obtain ⟨hd, hv⟩ := digitChar_isDigit (n % 10) (Nat.mod_lt n (by decide))
    unfold Nat.toDigitsCore
    by_cases h0 : n / 10 = 0
    · have hn : n % 10 = n := by omega
      simp only [h0, if_true, List.all_cons, hd, Bool.true_and, List.foldl_cons, hv]
      refine ⟨trivial, ?_, by simp⟩
      rw [hn]; simp
    · have hlt : n / 10 < fuel := by omega
      obtain ⟨i1, i2, i3⟩ := ih (n / 10) (Nat.digitChar (n % 10) :: ds) hlt
      simp only [h0, if_false]
      refine ⟨?_, ?_, i3⟩
      · rw [i1, List.all_cons, hd, Bool.true_and]
      · rw [i2, List.foldl_cons, hv]
        have : 10 * (n / 10) + n % 10 = n := by omega
        rw [this]

theorem parseDecimal_toString (n : Nat) : parseDecimal (toString n) = some n := by
  obtain ⟨h1, h2, h3⟩ := toDigitsCore_digits (n + 1) n [] (Nat.lt_succ_self n)
  have hdata : (toString n).data = Nat.toDigitsCore 10 (n + 1) n [] := rfl
  unfold parseDecimal
  rw [hdata, if_pos ⟨h3, by rw [h1]; rfl⟩, h2]
  rfl

theorem isDigit_of_mem_toString (n : Nat) (c : Char) (h : c ∈ (toString n).data) :
    c.isDigit = true := by
  obtain ⟨h1, -, -⟩ := toDigitsCore_digits (n + 1) n [] (Nat.lt_succ_self n)
  have hdata : (toString n).data = Nat.toDigitsCore 10 (n + 1) n [] := rfl
  rw [hdata] at h
  have hall : (Nat.toDigitsCore 10 (n + 1) n []).all Char.isDigit = true := by rw [h1]; rfl
  exact List.all_eq_true.mp hall c h

theorem toString_nat_injective (m n : Nat) (h : toString m = toString n) : m = n := by
  have hm := parseDecimal_toString m
  rw [h, parseDecimal_toString n] at hm
  exact (Option.some.inj hm).symm

theorem append_cons_cancel (c : Char) :
    ∀ (l₁ l₂ r₁ r₂ : List Char), c ∉ l₁ → c ∉ l₂ → l₁ ++ c :: r₁ = l₂ ++ c :: r₂ →
      l₁ = l₂ ∧ r₁ = r₂ := by
  intro l₁
  induction l₁ with
  | nil =>
    intro l₂ r₁ r₂ _ h₂ h
    cases l₂ with
    | nil => exact ⟨rfl, by simpa using h⟩
    | cons b l₂ =>
      simp only [List.nil_append, List.cons_append, List.cons.injEq] at h
      exact absurd (h.1 ▸ List.mem_cons_self _ _) h₂
  | cons a l₁ ih =>
    intro l₂ r₁ r₂ h₁ h₂ h
    cases l₂ with
    | nil =>
      simp only [List.nil_append, List.cons_append, List.cons.injEq] at h
      exact absurd (h.1 ▸ List.mem_cons_self _ _) h₁
    | cons b l₂ =>
      simp only [List.cons_append, List.cons.injEq] at h
      obtain ⟨e₁, e₂⟩ := ih l₂ r₁ r₂ (fun hc => h₁ (List.mem_cons_of_mem _ hc))
        (fun hc => h₂ (List.mem_cons_of_mem _ hc)) h.2
      exact ⟨by rw [h.1, e₁], e₂⟩

theorem digits_append_cancel :
    ∀ (l₁ l₂ r₁ r₂ : List Char), (∀ x ∈ l₁, x.isDigit = true) → (∀ x ∈ l₂, x.isDigit = true) →
      (∀ y ∈ r₁.head?, y.isDigit = false) → (∀ y ∈ r₂.head?, y.isDigit = false) →
      l₁ ++ r₁ = l₂ ++ r₂ → l₁ = l₂ ∧ r₁ = r₂ := by
  intro l₁
  induction l₁ with
  | nil =>
    intro l₂ r₁ r₂ _ h₂ g₁ _ h
    cases l₂ with
    | nil => exact ⟨rfl, by simpa using h⟩
    | cons b l₂ =>
      simp only [List.nil_append, List.cons_append] at h
      have hb := g₁ b (by rw [h]; rfl)
      rw [h₂ b (List.mem_cons_self _ _)] at hb
      cases hb
  | cons a l₁ ih =>
    intro l₂ r₁ r₂ h₁ h₂ g₁ g₂ h
    cases l₂ with
    | nil =>
      simp only [List.nil_append, List.cons_append] at h
      have ha := g₂ a (by rw [← h]; rfl)
      rw [h₁ a (List.mem_cons_self _ _)] at ha
      cases ha
    | cons b l₂ =>
      simp only [List.cons_append, List.cons.injEq] at h
      obtain ⟨e₁, e₂⟩ := ih l₂ r₁ r₂ (fun x hx => h₁ x (List.mem_cons_of_mem _ hx))
        (fun x hx => h₂ x (List.mem_cons_of_mem _ hx)) g₁ g₂ h.2
      exact ⟨by rw [h.1, e₁], e₂⟩

theorem extnameChars_head (path : List Char) :
    ∀ y ∈ (extnameChars path).head?, y.isDigit = false := by
  intro y hy
  unfold extnameChars at hy
  simp only at hy
  split at hy
  · simp at hy
  · split at hy
    · simp at hy
    · split at hy
      · simp at hy
      · simp only [List.head?_cons, Option.mem_def, Option.some.injEq] at hy
        rw [← hy]; decide

theorem uniqueName_data (now random : Nat) (originalname : String) :
    (uniqueName now random originalname).data =
      (toString now).data ++ '-' :: ((toString random).data ++ extnameChars originalname.data) := by
  simp [uniqueName, extname, String.data_append]

/-- Claim C14, as the code has it: the stored name is fixed by the clock
reading, the random integer and the extension of the original name. Two
allocations get the same stored name exactly when all three agree, so two stored
names differ as soon as the clock readings or the random integers differ, and
nothing makes them differ otherwise. The `filename` callback is the same in both
servers. -/
theorem uniqueName_eq_iff (now₁ random₁ now₂ random₂ : Nat) (name₁ name₂ : String) :
    uniqueName now₁ random₁ name₁ = uniqueName now₂ random₂ name₂ ↔
      now₁ = now₂ ∧ random₁ = random₂ ∧ extname name₁ = extname name₂ := by
  constructor
  · intro h
    have hd := congrArg String.data h
    rw [uniqueName_data, uniqueName_data] at hd
    have hdash : ∀ n : Nat, '-' ∉ (toString n).data := fun n hmem => by
      have := isDigit_of_mem_toString n '-' hmem
      revert this; decide
    obtain ⟨e₁, e₂⟩ := append_cons_cancel '-' _ _ _ _ (hdash now₁) (hdash now₂) hd
    obtain ⟨e₃, e₄⟩ := digits_append_cancel _ _ _ _ (isDigit_of_mem_toString random₁)
      (isDigit_of_mem_toString random₂) (extnameChars_head _) (extnameChars_head _) e₂
    exact ⟨toString_nat_injective _ _ (String.ext e₁), toString_nat_injective _ _ (String.ext e₃),
      by unfold extname; rw [e₄]⟩
  · rintro ⟨rfl, rfl, h⟩
    unfold uniqueName
    rw [h]

/-- Claim C14 fails as stated: two allocations for different original names,
made at the same clock reading with the same random integer, get the same
stored name. -/
theorem uniqueName_collision :
    "a.txt" ≠ "b.txt" ∧
      uniqueName 1700000000000 42 "a.txt" = uniqueName 1700000000000 42 "b.txt" := by
  decide

/-! ## Download after an upload -/

theorem find?_deleteRow_of_ne (files : List FileRecord) (fileId i : Nat) (h : fileId ≠ i) :
    (deleteRow files fileId).find? (fun f => f.id == i) = files.find? (fun f => f.id == i) := by
  induction files with
  | nil => rfl
  | cons g gs ih =>
    unfold deleteRow at ih ⊢
    by_cases hg : g.id = fileId
    · have hgi : ¬ g.id = i := fun e => h (hg.symm.trans e)
      rw [List.filter_cons_of_neg (by simp [hg]), ih, List.find?_cons_of_neg _ (by simp [hgi])]
    · rw [List.filter_cons_of_pos (by simp [hg])]
      by_cases hgi : g.id = i
      · rw [List.find?_cons_of_pos _ (by simp [hgi]), List.find?_cons_of_pos _ (by simp [hgi])]
      · rw [List.find?_cons_of_neg _ (by simp [hgi]), List.find?_cons_of_neg _ (by simp [hgi]), ih]

/-- What an upload with a `file` part does to the content of the directory:
either the table is as before and every blob at another path than the new
storage path is unchanged, or one record with the new storage path was appended
and its content was written there. -/
theorem apiUpload_effect_read (env : UploadEnv) (s : Store) (f : MultipartFile)
    (u : Option String) :
    ((Backend.apiUpload env s ⟨some f, u⟩).1.files = s.files ∧
        ∀ q, q ≠ storagePath env.uniqueName →
          readBlob (Backend.apiUpload env s ⟨some f, u⟩).1.blobs q = readBlob s.blobs q) ∨
      (∃ r : FileRecord, r.file_path = storagePath env.uniqueName ∧
        (Backend.apiUpload env s ⟨some f, u⟩).1.files = s.files ++ [r] ∧
        (Backend.apiUpload env s ⟨some f, u⟩).1.blobs =
          writeBlob s.blobs (storagePath env.uniqueName) f.content) := by
  by_cases hsize : f.content.length ≤ Backend.fileSizeLimit
  · rw [apiUpload_stored env s f u hsize]
    have hkeep : ∀ q, q ≠ storagePath env.uniqueName →
        readBlob (writeBlob s.blobs (storagePath env.uniqueName) f.content) q =
          readBlob s.blobs q := fun q hq => readBlob_writeBlob_of_ne _ _ _ _ hq
    have hgone : ∀ q, q ≠ storagePath env.uniqueName →
        readBlob (removeBlob (writeBlob s.blobs (storagePath env.uniqueName) f.content)
          (storagePath env.uniqueName)) q = readBlob s.blobs q := fun q hq => by
      rw [readBlob_removeBlob_of_ne _ _ _ hq, readBlob_writeBlob_of_ne _ _ _ _ hq]
    cases hul : unlinkSync env.unlinkSyncErr
        (writeBlob s.blobs (storagePath env.uniqueName) f.content)
        (storagePath env.uniqueName) with
    | none =>
      cases ht : truthy u with
      | none => left; simp only [Backend.uploadHandler, ht, hul]; exact ⟨trivial, hkeep⟩
      | some t =>
        cases hins : env.insertErr with
        | true =>
          left; simp only [Backend.uploadHandler, ht, hul, hins, if_true]
          exact ⟨trivial, hkeep⟩
        | false =>
          right
          simp only [Backend.uploadHandler, ht, hins]
          exact ⟨_, rfl, rfl, rfl⟩
    | some blobs' =>
      have hb := unlinkSync_eq_some _ _ _ _ hul
      subst hb
      cases ht : truthy u with
      | none => left; simp only [Backend.uploadHandler, ht, hul]; exact ⟨trivial, hgone⟩
      | some t =>
        cases hins : env.insertErr with
        | true =>
          left; simp only [Backend.uploadHandler, ht, hul, hins, if_true]
          exact ⟨trivial, hgone⟩
        | false =>
          right
          simp only [Backend.uploadHandler, ht, hins]
          exact ⟨_, rfl, rfl, rfl⟩
  · left
    have hlt : Backend.fileSizeLimit < f.content.length := Nat.lt_of_not_le hsize
    simp only [Backend.apiUpload, Backend.uploadSingle, hlt, if_true]
    exact ⟨trivial, fun q hq => readBlob_removeBlob_of_ne _ _ _ hq⟩

theorem holdsFile_upload (r : FileRecord) (content : Bytes) (env : UploadEnv) (s : Store)
    (req : UploadRequest) (h : HoldsFile r content s)
    (hname : req.file.isSome = true → storagePath env.uniqueName ≠ r.file_path) :
    HoldsFile r content (Backend.apiUpload env s req).1 := by
  obtain ⟨file, u⟩ := req
  cases file with
  | none => exact h
  | some f =>
    have hp : r.file_path ≠ storagePath env.uniqueName := fun e => hname rfl e.symm
    obtain ⟨h1, h2, h3⟩ := h
    rcases apiUpload_effect_read env s f u with ⟨hfiles, hblobs⟩ | ⟨r', hr', hfiles, hblobs⟩
    · refine ⟨by rw [hfiles]; exact h1, by rw [hblobs _ hp]; exact h2, ?_⟩
      rw [hfiles]; exact h3
    · refine ⟨?_, ?_, ?_⟩
      · rw [hfiles, List.find?_append, h1]; rfl
      · rw [hblobs, readBlob_writeBlob_of_ne _ _ _ _ hp]; exact h2
      · intro g hg hpath
        rw [hfiles] at hg
        rcases List.mem_append.mp hg with hg | hg
        · exact h3 g hg hpath
        · rw [List.mem_singleton.mp hg, hr'] at hpath
          exact absurd hpath.symm hp

theorem holdsFile_delete (r : FileRecord) (content : Bytes) (env : DeleteEnv) (s : Store)
    (fileId : Nat) (h : HoldsFile r content s) (hid : fileId ≠ r.id) :
    HoldsFile r content (Backend.apiDeleteFile env s fileId).1 := by
  obtain ⟨h1, h2, h3⟩ := h
  obtain ⟨getErr, unlinkErr, runErr⟩ := env
  cases getErr with
  | true => simpa [Backend.apiDeleteFile, selectFile] using ⟨h1, h2, h3⟩
  | false =>
    cases hfind : s.files.find? (fun f => f.id == fileId) with
    | none => simpa [Backend.apiDeleteFile, selectFile, hfind] using ⟨h1, h2, h3⟩
    | some g =>
      obtain ⟨hg, hgid⟩ := find?_some_id _ _ _ hfind
      have hp : r.file_path ≠ g.file_path := by
        intro e
        exact hid (hgid.symm.trans (h3 g hg e.symm))
      have hblobs : readBlob (if existsSync s.blobs g.file_path = true then
          (unlink unlinkErr s.blobs g.file_path).1 else s.blobs) r.file_path = some content := by
        split
        · rw [readBlob_unlink_of_ne _ _ _ _ hp]; exact h2
        · exact h2
      cases runErr with
      | true =>
        have hstate : (Backend.apiDeleteFile ⟨false, unlinkErr, true⟩ s fileId).1 =
            { s with blobs := if existsSync s.blobs g.file_path = true then
                (unlink unlinkErr s.blobs g.file_path).1 else s.blobs } := by
          simp [Backend.apiDeleteFile, selectFile, hfind]
        rw [hstate]
        exact ⟨h1, hblobs, h3⟩
      | false =>
        have hstate : (Backend.apiDeleteFile ⟨false, unlinkErr, false⟩ s fileId).1 =
            { s with blobs := if existsSync s.blobs g.file_path = true then
                (unlink unlinkErr s.blobs g.file_path).1 else s.blobs,
                     files := deleteRow s.files fileId } := by
          simp [Backend.apiDeleteFile, selectFile, hfind]
        rw [hstate]
        refine ⟨?_, hblobs, ?_⟩
        · show (deleteRow s.files fileId).find? (fun f => f.id == r.id) = some r
          rw [find?_deleteRow_of_ne _ _ _ hid]; exact h1
        · intro g' hg' hpath
          exact h3 g' (List.mem_of_mem_filter hg') hpath

theorem holdsFile_run (r : FileRecord) (content : Bytes) (ops : List Op) :
    ∀ s : Store, HoldsFile r content s → deletes r.id ops = false →
      (∀ n ∈ allocatedNames ops, storagePath n ≠ r.file_path) →
      HoldsFile r content (Backend.run s ops) := by
  induction ops with
  | nil => intro s h _ _; exact h
  | cons op rest ih =>
    intro s h hdel hnames
    have hdel' : deletes r.id rest = false := by
      simp only [deletes, List.any_cons, Bool.or_eq_false_iff] at hdel ⊢
      exact hdel.2
    show HoldsFile r content (Backend.run (Backend.step s op) rest)
    cases op with
    | delete env fileId =>
      have hid : fileId ≠ r.id := by
        simp only [deletes, List.any_cons, Bool.or_eq_false_iff] at hdel
        simpa using hdel.1
      exact ih _ (holdsFile_delete r content env s fileId h hid) hdel' hnames
    | upload env req =>
      obtain ⟨file, u⟩ := req
      cases file with
      | none =>
        have hnone : HoldsFile r content (Backend.apiUpload env s ⟨none, u⟩).1 :=
          holdsFile_upload r content env s ⟨none, u⟩ h (fun e => by cases e)
        exact ih _ hnone hdel' hnames
      | some f =>
        have hn : allocatedNames (Op.upload env ⟨some f, u⟩ :: rest) =
            env.uniqueName :: allocatedNames rest := rfl
        rw [hn] at hnames
        exact ih _ (holdsFile_upload r content env s ⟨some f, u⟩ h
            (fun _ => hnames _ (List.mem_cons_self _ _))) hdel'
          (fun n hmem => hnames n (List.mem_cons_of_mem _ hmem))

theorem apiDownload_of_holdsFile (r : FileRecord) (content : Bytes) (s : Store)
    (h : HoldsFile r content s) :
    Backend.apiDownload false s r.id =
      (s, Outcome.download r.file_path r.original_name content) := by
  obtain ⟨h1, h2, -⟩ := h
  have hex : existsSync s.blobs r.file_path = true := by
    rw [existsSync_eq_isSome, h2]; rfl
  simp [Backend.apiDownload, selectFile, h1, hex, h2]

theorem holdsFile_after_upload (env : UploadEnv) (s : Store) (f : MultipartFile) (u : String)
    (hfresh : ∀ g ∈ s.files, g.file_path ≠ storagePath env.uniqueName) :
    HoldsFile
      { id := nextRowid s, filename := env.uniqueName, original_name := f.originalname,
        file_path := storagePath env.uniqueName, file_size := f.content.length,
        uploaded_by := u, upload_date := env.currentTimestamp }
      f.content
      { s with
        blobs := writeBlob s.blobs (storagePath env.uniqueName) f.content,
        files := s.files ++ [{ id := nextRowid s, filename := env.uniqueName,
                               original_name := f.originalname,
                               file_path := storagePath env.uniqueName,
                               file_size := f.content.length, uploaded_by := u,
                               upload_date := env.currentTimestamp }],
        seq := nextRowid s } := by
  refine ⟨?_, readBlob_writeBlob_self _ _ _, ?_⟩
  · exact find?_append_new s.files _ (fun g hg => Nat.ne_of_lt (lt_nextRowid s g hg))
  · intro g hg hpath
    rcases List.mem_append.mp hg with hg | hg
    · exact absurd hpath (hfresh g hg)
    · rw [List.mem_singleton.mp hg]

/-- Claim C4, as the code has it: after an upload that answered `success: true`
with id `i`, a download of `i` streams exactly the bytes that were uploaded and
proposes the original name the user sent as the save name, not the stored name.
This holds for a download that directly follows the upload, and also after any
further uploads and deletes among which there is no delete of `i`, provided the
stored name of this upload is the stored name of no other upload: no earlier
FileRecord has its storage path and no upload in between is allocated the same
name. -/
theorem download_after_upload (env : UploadEnv) (s : Store) (req : UploadRequest)
    (i : Nat) (name : String) (size date : Nat)
    (h : (Backend.apiUpload env s req).2 = Outcome.json 200 (Body.uploaded i name size date)) :
    ∃ f, req.file = some f ∧ name = f.originalname ∧ size = f.content.length ∧
      Backend.apiDownload false (Backend.apiUpload env s req).1 i =
        ((Backend.apiUpload env s req).1,
          Outcome.download (storagePath env.uniqueName) f.originalname f.content) ∧
      ∀ ops : List Op, (∀ g ∈ s.files, g.file_path ≠ storagePath env.uniqueName) →
        deletes i ops = false → env.uniqueName ∉ allocatedNames ops →
        Backend.apiDownload false (Backend.run (Backend.apiUpload env s req).1 ops) i =
          (Backend.run (Backend.apiUpload env s req).1 ops,
            Outcome.download (storagePath env.uniqueName) f.originalname f.content) := by
  obtain ⟨f, u, rfl, hu, hsize, hins⟩ := apiUpload_success_inv env s _ i name size date h
  have hfresh : ∀ g ∈ s.files, g.id ≠ nextRowid s := fun g hg =>
    Nat.ne_of_lt (lt_nextRowid s g hg)
  rw [apiUpload_ok env s f u hu hsize hins] at h ⊢
  injection h with _ hb
  injection hb with hi hn hs _
  subst hi hn hs
  refine ⟨f, rfl, rfl, rfl, ?_, ?_⟩
  · have hsel := find?_append_new s.files
      { id := nextRowid s, filename := env.uniqueName, original_name := f.originalname,
        file_path := storagePath env.uniqueName, file_size := f.content.length,
        uploaded_by := u, upload_date := env.currentTimestamp } hfresh
    simp [Backend.apiDownload, selectFile, hsel, existsSync_writeBlob, readBlob_writeBlob_self]
  · intro ops hpath hdel hnames
    have hrun := holdsFile_run _ _ ops _ (holdsFile_after_upload env s f u hpath) hdel
      (fun n hn e => hnames (storagePath_injective _ _ e ▸ hn))
    exact apiDownload_of_holdsFile _ _ _ hrun

theorem download_after_upload_witness :
    ∃ f, sampleRequest.file = some f ∧ "a.txt" = f.originalname ∧ 10 = f.content.length ∧
      Backend.apiDownload false (Backend.apiUpload uploadOk initialStore sampleRequest).1 1 =
        ((Backend.apiUpload uploadOk initialStore sampleRequest).1,
          Outcome.download (storagePath uploadOk.uniqueName) f.originalname f.content) ∧
      Backend.apiDownload false
          (Backend.run (Backend.apiUpload uploadOk initialStore sampleRequest).1
            [Op.upload { uploadOk with uniqueName := "1700000000001-7.txt" } secondRequest,
             Op.delete deleteOk 2]) 1 =
        (Backend.run (Backend.apiUpload uploadOk initialStore sampleRequest).1
            [Op.upload { uploadOk with uniqueName := "1700000000001-7.txt" } secondRequest,
             Op.delete deleteOk 2],
          Outcome.download (storagePath uploadOk.uniqueName) f.originalname f.content) := by
  obtain ⟨f, h1, h2, h3, h4, h5⟩ :=
    download_after_upload uploadOk initialStore sampleRequest 1 "a.txt" 10 100000 (by decide)
  exact ⟨f, h1, h2, h3, h4, h5 _ (by decide) (by decide) (by decide)⟩

/-- Claim C4 fails as stated, in two ways, without any delete of the uploaded
id. After the upload of `a.txt` answered with id 1, an upload that is allocated
the same stored name overwrites the blob, and the download of 1 streams the two
bytes of the other file. And when the stored name of a new upload (answered with
id 2) is that of an earlier FileRecord, a delete of that earlier record removes
the shared blob, and the download of 2 answers 404. -/
theorem download_after_name_reuse :
    (Backend.apiUpload uploadOk initialStore sampleRequest).2 =
        Outcome.json 200 (Body.uploaded 1 "a.txt" 10 100000) ∧
      deletes 1 [Op.upload uploadOk secondRequest] = false ∧
      (Backend.apiDownload false
          (Backend.run (Backend.apiUpload uploadOk initialStore sampleRequest).1
            [Op.upload uploadOk secondRequest]) 1).2 =
        Outcome.download "uploads/1700000000000-42.txt" "a.txt" [9, 9] ∧
      (Backend.apiUpload uploadOk storeWithBlob secondRequest).2 =
        Outcome.json 200 (Body.uploaded 2 "b.txt" 2 100000) ∧
      deletes 2 [Op.delete deleteOk 1] = false ∧
      (Backend.apiDownload false
          (Backend.run (Backend.apiUpload uploadOk storeWithBlob secondRequest).1
            [Op.delete deleteOk 1]) 2).2 =
        Outcome.json 404 (Body.failure "Archivo físico no encontrado") := by
  decide
